import Mathlib

/-!
Shallow embedding of the Foliorank SDK ranking core
(src/sdk/foliorank/ranking.py, simulation.py, agent.py) and proofs about it.

Python numbers are modelled as exact rationals (`ℚ`); Python `round` is
modelled as round-half-to-even on the rational value (CPython applies correct
decimal rounding to the binary double, which can differ from the exact-decimal
tie at representation boundaries; no property proved below depends on the
direction of an exact tie). Python dictionaries are modelled as association
lists with insertion-order semantics (updating an existing key keeps its
position and replaces the value, as in CPython 3.7+). Exceptions are modelled
with `Except`.
-/

namespace Foliorank

/-- A dynamically typed Python value (the subset of shapes the ranking code
manipulates: `None`, strings, numbers, lists, dicts). -/
inductive PyVal where
  | pynone
  | str (s : String)
  | num (q : ℚ)
  | list (xs : List PyVal)
  | dict (kvs : List (PyVal × PyVal))

mutual

/-- Python `==` on values (structural equality). -/
def PyVal.beq : PyVal → PyVal → Bool
  | .pynone, .pynone => true
  | .str a, .str b => a == b
  | .num a, .num b => a == b
  | .list as, .list bs => PyVal.beqList as bs
  | .dict as, .dict bs => PyVal.beqKVs as bs
  | _, _ => false

/-- Elementwise Python `==` on lists. -/
def PyVal.beqList : List PyVal → List PyVal → Bool
  | [], [] => true
  | a :: as, b :: bs => PyVal.beq a b && PyVal.beqList as bs
  | _, _ => false

/-- Entrywise Python `==` on dict entry lists. -/
def PyVal.beqKVs : List (PyVal × PyVal) → List (PyVal × PyVal) → Bool
  | [], [] => true
  | (k, v) :: as, (l, w) :: bs => PyVal.beq k l && PyVal.beq v w && PyVal.beqKVs as bs
  | _, _ => false

end

/-- Python truthiness: `None`, `""`, `0`, `[]` and `{}` are falsy. -/
def PyVal.truthy : PyVal → Bool
  | .pynone => false
  | .str s => !(s == "")
  | .num q => !(q == 0)
  | .list xs => !xs.isEmpty
  | .dict kvs => !kvs.isEmpty

/-- Python `d.get(k, default)` on a dict held as an association list. -/
def pyGet (kvs : List (PyVal × PyVal)) (k : PyVal) (dflt : PyVal) : PyVal :=
  match kvs.find? (fun kv => PyVal.beq kv.1 k) with
  | Option.some kv => kv.2
  | Option.none => dflt

/-- Python `d[k] = v`: replace the value in place when the key is present
(keeping its insertion position), otherwise append the new entry at the end. -/
def pyUpdate (m : List (PyVal × PyVal)) (k v : PyVal) : List (PyVal × PyVal) :=
  match m with
  | [] => [(k, v)]
  | (k', v') :: rest =>
      if PyVal.beq k' k then (k', v) :: rest else (k', v') :: pyUpdate rest k v

/-- The Python exceptions that can escape the embedded code paths. -/
inductive PyErr where
  | rankingViolation (msg : String)
  | attributeError (msg : String)
  | typeError (msg : String)
  deriving DecidableEq

/- ## Simulator (src/sdk/foliorank/simulation.py, `SimulationEngine.run`) -/

/-- One entry of a portfolio allocation: `{"asset": ..., "weight": ...}`. -/
structure AllocEntry where
  asset : String
  weight : ℚ
  deriving DecidableEq

/-- A portfolio specification (the fields `SimulationEngine.run` and the
ranking pipeline read from a portfolio dictionary). -/
structure Portfolio where
  portfolio_name : String
  allocation : List AllocEntry
  rationale : String
  deriving DecidableEq

/-- ASCII lowercasing of a string into its character list (Python
`str.lower()` for the ASCII asset names used throughout the repository). -/
def lowerList (s : String) : List Char := s.data.map Char.toLower

/-- Python `needle in hay` on strings: substring containment. -/
def pyIn (needle : String) (hay : List Char) : Bool :=
  hay.tails.any (fun t => needle.data.isPrefixOf t)

/-- The three accumulators of simulation.py:130-132. -/
structure ClassWeights where
  equities : ℚ
  bonds : ℚ
  cash : ℚ
  deriving DecidableEq

/-- The classification loop of simulation.py:134-143: each entry is tested for
the substrings "equities" / "bonds" / "cash" in its lowercased asset name (in
that order, `elif` style), and a match overwrites that class accumulator. -/
def computeClassWeights (allocation : List AllocEntry) : ClassWeights :=
  allocation.foldl
    (fun w item =>
      let asset := lowerList item.asset
      if pyIn "equities" asset then { w with equities := item.weight }
      else if pyIn "bonds" asset then { w with bonds := item.weight }
      else if pyIn "cash" asset then { w with cash := item.weight }
      else w)
    ⟨0, 0, 0⟩

/-- Python `round` to an integer: round half to even. -/
def pyRoundInt (q : ℚ) : ℤ :=
  let f := ⌊q⌋
  let r := q - f
  if r < 1/2 then f else if 1/2 < r then f + 1 else if f % 2 = 0 then f else f + 1

/-- Python `round(q, n)`. -/
def pyRound (q : ℚ) (n : ℕ) : ℚ := (pyRoundInt (q * 10 ^ n) : ℚ) / 10 ^ n

/-- The result dictionary of `SimulationEngine.run` (simulation.py:175-180). -/
structure SimResult where
  expected_return : ℚ
  volatility : ℚ
  time_horizon : String
  simulation_version : String
  deriving DecidableEq

/-- Raw (pre-rounding) expected return of simulation.py:153-157 as a function
of the computed class weights. -/
def rawExpectedReturn (w : ClassWeights) : ℚ :=
  (w.equities * 7 + w.bonds * 3 + w.cash * 1) / 100

/-- Raw (pre-rounding) volatility of simulation.py:165-169. -/
def rawVolatility (w : ClassWeights) : ℚ :=
  (w.equities * 15 + w.bonds * 5 + w.cash * (1/2)) / 100

/-- `SimulationEngine.run` (simulation.py:106-188): deterministic rule-based
simulation; the audit-trail side effect carries no data used by ranking and is
not modelled. -/
def SimulationEngine.run (portfolio : Portfolio) : SimResult :=
  let w := computeClassWeights portfolio.allocation
  { expected_return := pyRound (rawExpectedReturn w) 1
    volatility := pyRound (rawVolatility w) 1
    time_horizon := "long_term"
    simulation_version := "v0.1" }

/- ## Bundle validation and extraction (src/sdk/foliorank/ranking.py) -/

/-- The per-item body of the loop in `_validate_and_extract_bundle`
(ranking.py:136-146), folded over the items with the accumulated portfolios
dict. -/
def extractItems : List PyVal → List (PyVal × PyVal) → Except PyErr (List (PyVal × PyVal))
  | [], acc => Except.ok acc
  | item :: rest, acc =>
      match item with
      | PyVal.dict kvs =>
          let pid := pyGet kvs (PyVal.str "id") PyVal.pynone
          let pspec := pyGet kvs (PyVal.str "portfolio") PyVal.pynone
          if pid.truthy && pspec.truthy then extractItems rest (pyUpdate acc pid pspec)
          else Except.error (PyErr.rankingViolation "Bundle items must have id and portfolio fields")
      | _ => Except.error (PyErr.rankingViolation "Bundle items must be dictionaries")

/-- `_validate_and_extract_bundle` (ranking.py:117-148): shape checks on the
rank bundle, then extraction of the id-keyed portfolios dict. -/
def validate_and_extract_bundle (bundle_input : PyVal) : Except PyErr (List (PyVal × PyVal)) :=
  match bundle_input with
  | PyVal.dict kvs =>
      if PyVal.beq (pyGet kvs (PyVal.str "version") PyVal.pynone) (PyVal.str "v0.1") then
        match pyGet kvs (PyVal.str "items") (PyVal.list []) with
        | PyVal.list items =>
            if items.isEmpty then
              Except.error (PyErr.rankingViolation "Bundle must contain at least one item")
            else extractItems items []
        | _ => Except.error (PyErr.rankingViolation "Bundle must contain at least one item")
      else Except.error (PyErr.rankingViolation "Unsupported bundle version")
  | _ => Except.error (PyErr.rankingViolation "Bundle input must be a dictionary")

/- ## Scoring (src/sdk/foliorank/ranking.py, `_compute_v1_balanced_scores`) -/

/-- A candidate that reached scoring: an export bundle as assembled at
ranking.py:70-76 after its validation succeeded.  Its `simulation_result` is
always a `SimulationEngine.run` output, so it is held in typed form. -/
structure RankCandidate where
  audit_hash : String
  portfolio_name : String
  sim : SimResult
  deriving DecidableEq

/-- One row of a score breakdown (ranking.py:302-307). -/
structure MetricScore where
  raw : ℚ
  normalized : ℚ
  weight : ℚ
  contribution : ℚ
  deriving DecidableEq

/-- The five-metric score breakdown dict (insertion order of ranking.py:253-291). -/
structure ScoreBreakdown where
  return_score : MetricScore
  risk_score : MetricScore
  drawdown_score : MetricScore
  stability_score : MetricScore
  completeness_score : MetricScore
  deriving DecidableEq

/-- A scored item (ranking.py:315-321).  The `notes` string
(`_generate_neutral_notes`, ranking.py:328-346) is presentation-only prose
read by nothing in the pipeline and is not modelled. -/
structure ScoredItem where
  audit_hash : String
  portfolio_name : String
  total_score : ℚ
  score_breakdown : ScoreBreakdown
  deriving DecidableEq

instance : Inhabited ScoredItem :=
  ⟨⟨"", "", 0, ⟨⟨0, 0, 0, 0⟩, ⟨0, 0, 0, 0⟩, ⟨0, 0, 0, 0⟩, ⟨0, 0, 0, 0⟩, ⟨0, 0, 0, 0⟩⟩⟩⟩

/-- The status tag of a normalization range (ranking.py:239-244). -/
inductive NormStatus where
  | identical
  | normalRange
  | emptyRange
  deriving DecidableEq

/-- A normalization range entry of `norm_ranges` (ranking.py:233-244). -/
structure NormRange where
  lo : ℚ
  hi : ℚ
  status : NormStatus
  deriving DecidableEq

/-- Python `min(v :: vs)` (leftmost minimum of a nonempty list). -/
def pyMin (v : ℚ) (vs : List ℚ) : ℚ := vs.foldl min v

/-- Python `max(v :: vs)`. -/
def pyMax (v : ℚ) (vs : List ℚ) : ℚ := vs.foldl max v

/-- Range computation of ranking.py:234-244 for one metric's raw values. -/
def computeRange (values : List ℚ) : NormRange :=
  match values with
  | [] => ⟨0, 1, NormStatus.emptyRange⟩
  | v :: vs =>
      let mn := pyMin v vs
      let mx := pyMax v vs
      if mn = mx then ⟨mn, mx, NormStatus.identical⟩ else ⟨mn, mx, NormStatus.normalRange⟩

/-- The raw stability metric of ranking.py:230 and 279: inverse volatility
(`1 / (1 + volatility)`). -/
def stabilityRaw (volatility : ℚ) : ℚ := 1 / (1 + volatility)

/-- Scoring of one bundle (the loop body of ranking.py:247-323) given the
normalization ranges of the whole batch.  The completeness metric counts the
four required fields in the simulation result (ranking.py:289-290); a
`SimulationEngine.run` result always carries all four, so it is 4/4 = 1.
The reported `total_score` is scaled to 0-100 and rounded to two decimals
(ranking.py:310 and 318). -/
def scoreCandidate (retR volR stabR : NormRange) (b : RankCandidate) : ScoredItem :=
  let er := b.sim.expected_return
  let vol := b.sim.volatility
  let retNorm : ℚ :=
    match retR.status with
    | NormStatus.identical => 1/2
    | _ => (er - retR.lo) / (retR.hi - retR.lo)
  let riskNorm : ℚ :=
    match volR.status with
    | NormStatus.identical => 1/2
    | _ => 1 - (vol - volR.lo) / (volR.hi - volR.lo)
  let stabNorm : ℚ :=
    match stabR.status with
    | NormStatus.identical => 1/2
    | _ => (stabilityRaw vol - stabR.lo) / (stabR.hi - stabR.lo)
  let bd : ScoreBreakdown :=
    { return_score := ⟨er, retNorm, 2/5, retNorm * (2/5)⟩
      risk_score := ⟨vol, riskNorm, 3/10, riskNorm * (3/10)⟩
      drawdown_score := ⟨0, 1/2, 1/5, (1/2 : ℚ) * (1/5)⟩
      stability_score := ⟨stabilityRaw vol, stabNorm, 1/20, stabNorm * (1/20)⟩
      completeness_score := ⟨1, 1, 1/20, (1 : ℚ) * (1/20)⟩ }
  let total :=
    (bd.return_score.contribution + bd.risk_score.contribution +
      bd.drawdown_score.contribution + bd.stability_score.contribution +
      bd.completeness_score.contribution) * 100
  { audit_hash := b.audit_hash
    portfolio_name := b.portfolio_name
    total_score := pyRound total 2
    score_breakdown := bd }

/-- `_compute_v1_balanced_scores` (ranking.py:192-325): collect the raw
metrics of the whole batch, compute the normalization ranges, then score each
bundle against them. -/
def compute_v1_balanced_scores (bundles : List RankCandidate) : List ScoredItem :=
  let retR := computeRange (bundles.map (fun b => b.sim.expected_return))
  let volR := computeRange (bundles.map (fun b => b.sim.volatility))
  let stabR := computeRange (bundles.map (fun b => stabilityRaw b.sim.volatility))
  bundles.map (scoreCandidate retR volR stabR)

/- ## Sorting and report assembly (ranking.py:88-114) -/

/-- The comparison key of ranking.py:89-93 as a strict order: item `a` sorts
before item `b` when its total score is higher, with ties broken by higher
normalized drawdown score and then by lexicographically smaller audit hash. -/
def rankLT (a b : ScoredItem) : Prop :=
  b.total_score < a.total_score ∨
    (a.total_score = b.total_score ∧
      (b.score_breakdown.drawdown_score.normalized < a.score_breakdown.drawdown_score.normalized ∨
        (a.score_breakdown.drawdown_score.normalized = b.score_breakdown.drawdown_score.normalized ∧
          a.audit_hash < b.audit_hash)))

instance : DecidableRel rankLT := fun a b => by
  unfold rankLT; infer_instance

/-- The non-strict comparison corresponding to `rankLT` (used by the stable
sort, matching Python `list.sort` with the tuple key of ranking.py:89-93). -/
def rankLE (a b : ScoredItem) : Bool :=
  decide (b.total_score < a.total_score) ||
    (decide (a.total_score = b.total_score) &&
      (decide (b.score_breakdown.drawdown_score.normalized <
          a.score_breakdown.drawdown_score.normalized) ||
        (decide (a.score_breakdown.drawdown_score.normalized =
            b.score_breakdown.drawdown_score.normalized) &&
          decide (a.audit_hash ≤ b.audit_hash))))

/-- `scored_items.sort(key=...)` (ranking.py:89-93): a stable sort by the
deterministic tuple key. -/
def sortScored (items : List ScoredItem) : List ScoredItem := items.mergeSort rankLE

/-- A ranked item: a scored item with its 1-based rank position
(ranking.py:100-101). -/
structure RankedItem where
  item : ScoredItem
  rank : ℕ
  deriving DecidableEq

/-- `for i, item in enumerate(scored_items, 1): item["rank"] = i`
(ranking.py:100-101). -/
def addRanks : ℕ → List ScoredItem → List RankedItem
  | _, [] => []
  | i, x :: xs => ⟨x, i⟩ :: addRanks (i + 1) xs

/-- A rejection record (ranking.py:167-171 and 173-177). -/
structure RejectionRecord where
  bundle_index : ℕ
  reason : String
  reason_code : String
  deriving DecidableEq

/-- The ranking report dict (ranking.py:104-112). -/
structure RankingReport where
  schema_version : String
  scoring_profile : String
  created_by : String
  total_candidates : ℕ
  valid_candidates : ℕ
  ranked_items : List RankedItem
  rejected_candidates : List RejectionRecord
  deriving DecidableEq

/- ## The ranking entry point (ranking.py:25-114) -/

/-- `rank_bundles` exactly as the sources execute it.  After the bundle-level
checks succeed, the first iteration of the loop at ranking.py:62-77 evaluates
`agent.simulate(portfolio_spec)` on a fresh `ControlledAgent`; the
`ControlledAgent` class (src/sdk/foliorank/agent.py) defines no attribute
`simulate`, so Python raises `AttributeError` there, uncaught by
`rank_bundles`, before any report can be assembled. -/
def rank_bundles_src (bundle_input : PyVal) (scoring_profile : String := "v1_balanced")
    (_top_k : Option ℕ := Option.none) : Except PyErr RankingReport :=
  if !bundle_input.truthy then
    Except.error (PyErr.rankingViolation "No bundle input provided for ranking")
  else if !(scoring_profile == "v1_balanced") then
    Except.error (PyErr.rankingViolation ("Unknown scoring profile: " ++ scoring_profile))
  else
    match validate_and_extract_bundle bundle_input with
    | Except.error e => Except.error e
    | Except.ok portfolios =>
        if portfolios.isEmpty then
          Except.error (PyErr.rankingViolation "No valid portfolios found in bundle")
        else
          Except.error (PyErr.attributeError "ControlledAgent object has no attribute simulate")

/- ## The intended pipeline, with the two missing collaborators modelled
from the spec -/

/-- Reading of one allocation entry dict, as `SimulationEngine.run` accesses
it (`item["asset"]` must be a string for `.lower()`, `item["weight"]` a
number). -/
def parseAllocEntry : PyVal → Option AllocEntry
  | PyVal.dict kvs =>
      match pyGet kvs (PyVal.str "asset") PyVal.pynone,
            pyGet kvs (PyVal.str "weight") PyVal.pynone with
      | PyVal.str a, PyVal.num w => Option.some ⟨a, w⟩
      | _, _ => Option.none
  | _ => Option.none

/-- Reading of a portfolio's `allocation` list. -/
def parseAllocation : PyVal → Option (List AllocEntry)
  | PyVal.list xs => xs.mapM parseAllocEntry
  | _ => Option.none

/-- Modelled from the spec: `ControlledAgent.simulate` is called at
ranking.py:67 (and by cli.py:110 and the examples) but is missing from the
sources.  Per spec section 4.1 and 6, simulation of a portfolio specification
is `Simulate(PortfolioSpec) -> SimulationMetrics`, the deterministic weighted
blend implemented by `SimulationEngine.run`; a specification whose allocation
cannot be read the way `run` reads it raises, as the Python attribute/key
access would. -/
def agentSimulate (pspec : PyVal) : Except PyErr SimResult :=
  match pspec with
  | PyVal.dict kvs =>
      match parseAllocation (pyGet kvs (PyVal.str "allocation") PyVal.pynone) with
      | Option.some alloc => Except.ok (SimulationEngine.run ⟨"", alloc, ""⟩)
      | Option.none => Except.error (PyErr.typeError "portfolio allocation is not simulatable")
  | _ => Except.error (PyErr.typeError "portfolio spec is not a dictionary")

/-- The closed set of abstract asset classes (mcp.py:205-209). -/
def allowedAssetClasses : List String :=
  ["Large-cap equities", "Government bonds", "Cash equivalents"]

/-- Modelled from the spec: `export.import_bundle` (imported at ranking.py:14
from the module `export`, which is missing from the sources).  Per spec
section 4.2, it checks each candidate's structural and safety rules: all
required fields present, allocation weights summing to exactly 100, asset
classes drawn from the allowed closed set; a violation is reported as an
`ExportViolation` reason string, a success yields the validated candidate. -/
def importBundle (audit_hash : String) (pspec : PyVal) (sim : SimResult) :
    Except String RankCandidate :=
  match pspec with
  | PyVal.dict kvs =>
      match pyGet kvs (PyVal.str "portfolio_name") PyVal.pynone,
            pyGet kvs (PyVal.str "rationale") PyVal.pynone with
      | PyVal.str nm, PyVal.str _ =>
          match parseAllocation (pyGet kvs (PyVal.str "allocation") PyVal.pynone) with
          | Option.some entries =>
              if entries.all (fun e => allowedAssetClasses.contains e.asset) then
                if (entries.map (fun e => e.weight)).sum = 100 then
                  Except.ok ⟨audit_hash, nm, sim⟩
                else Except.error "Allocation weights must sum to 100"
              else Except.error "Asset class not allowed"
          | Option.none => Except.error "Invalid allocation structure"
      | _, _ => Except.error "Missing required portfolio fields"
  | _ => Except.error "Portfolio spec must be a dictionary"

/-- The loop of `_validate_bundles` (ranking.py:151-179) from position `i`:
split into validated candidates and rejection records carrying the item's
index.  The modelled `importBundle` fails only with `ExportViolation`-style
reasons, so the catch-all `unexpected_error` branch of ranking.py:172-177 is
never taken. -/
def validateBundlesAux : ℕ → List (String × PyVal × SimResult) →
    List RankCandidate × List RejectionRecord
  | _, [] => ([], [])
  | i, (h, ps, sim) :: rest =>
      let next := validateBundlesAux (i + 1) rest
      match importBundle h ps sim with
      | Except.ok c => (c :: next.1, next.2)
      | Except.error msg => (next.1, ⟨i, msg, "validation_failed"⟩ :: next.2)

/-- `_validate_bundles` (ranking.py:151-179). -/
def validate_bundles (bundles : List (String × PyVal × SimResult)) :
    List RankCandidate × List RejectionRecord :=
  validateBundlesAux 0 bundles

/-- Python f-string rendering of a value (for the audit-hash tag at
ranking.py:73).  Ids are strings under the RankBundle contract (spec section
3); the rendering of non-string ids is not relied on by anything proved
below. -/
def PyVal.fstr : PyVal → String
  | .str s => s
  | .num q => toString q.num
  | _ => ""

/-- The simulation loop of ranking.py:62-77: simulate each extracted
portfolio and assemble the export-bundle records (audit-hash tag, portfolio
spec, simulation result); a simulation error propagates uncaught. -/
def simulateAll : List (PyVal × PyVal) → Except PyErr (List (String × PyVal × SimResult))
  | [] => Except.ok []
  | (pid, pspec) :: rest =>
      match agentSimulate pspec with
      | Except.error e => Except.error e
      | Except.ok sim =>
          match simulateAll rest with
          | Except.error e => Except.error e
          | Except.ok others => Except.ok (("rank_" ++ pid.fstr, pspec, sim) :: others)

/-- Modelled from the spec: `rank_bundles` (ranking.py:25-114) with the two
collaborators missing from the sources filled in from the spec —
`ControlledAgent.simulate` as `agentSimulate` and `export.import_bundle` as
`importBundle`.  All other steps are translated from ranking.py: the
bundle-level checks, the simulation loop, the valid/rejected split, scoring
(the `_compute_scores` dispatch at ranking.py:182-189 only ever sees the
already-validated profile "v1_balanced"), the sort, the `top_k` truncation
before rank assignment, and the report assembly. -/
def rank_bundles (bundle_input : PyVal) (scoring_profile : String := "v1_balanced")
    (top_k : Option ℕ := Option.none) : Except PyErr RankingReport :=
  if !bundle_input.truthy then
    Except.error (PyErr.rankingViolation "No bundle input provided for ranking")
  else if !(scoring_profile == "v1_balanced") then
    Except.error (PyErr.rankingViolation ("Unknown scoring profile: " ++ scoring_profile))
  else
    match validate_and_extract_bundle bundle_input with
    | Except.error e => Except.error e
    | Except.ok portfolios =>
        if portfolios.isEmpty then
          Except.error (PyErr.rankingViolation "No valid portfolios found in bundle")
        else
          match simulateAll portfolios with
          | Except.error e => Except.error e
          | Except.ok bundles =>
              let vr := validate_bundles bundles
              if vr.1.isEmpty then
                Except.error (PyErr.rankingViolation "No valid bundles found for ranking")
              else
                let sorted := sortScored (compute_v1_balanced_scores vr.1)
                let limited :=
                  match top_k with
                  | Option.some k => sorted.take k
                  | Option.none => sorted
                Except.ok
                  { schema_version := "ranking_report_v1"
                    scoring_profile := scoring_profile
                    created_by := "foliorank-sdk"
                    total_candidates := bundles.length
                    valid_candidates := vr.1.length
                    ranked_items := addRanks 1 limited
                    rejected_candidates := vr.2 }

/- ## Concrete inputs and claim-level predicates -/

/-- An allocation entry dict as carried inside a rank bundle. -/
def allocEntryVal (asset : String) (w : ℚ) : PyVal :=
  PyVal.dict [(PyVal.str "asset", PyVal.str asset), (PyVal.str "weight", PyVal.num w)]

/-- A portfolio specification dict (the JSON shape of spec section 6). -/
def portfolioVal (nm : String) (alloc : List (String × ℚ)) (why : String) : PyVal :=
  PyVal.dict
    [(PyVal.str "portfolio_name", PyVal.str nm),
     (PyVal.str "allocation", PyVal.list (alloc.map (fun p => allocEntryVal p.1 p.2))),
     (PyVal.str "rationale", PyVal.str why)]

/-- A canonical rank bundle dict built from `(id, portfolio)` pairs. -/
def mkRankBundle (pairs : List (String × PyVal)) : PyVal :=
  PyVal.dict
    [(PyVal.str "version", PyVal.str "v0.1"),
     (PyVal.str "items",
      PyVal.list (pairs.map (fun p =>
        PyVal.dict [(PyVal.str "id", PyVal.str p.1), (PyVal.str "portfolio", p.2)])))]

/-- One rank-bundle item dict for an `(id, portfolio)` pair. -/
def itemOfPair (p : String × PyVal) : PyVal :=
  PyVal.dict [(PyVal.str "id", PyVal.str p.1), (PyVal.str "portfolio", p.2)]

/-- The keyed-map update of `pyUpdate`, specialised to string keys (the
specification-level view of the portfolios dict of ranking.py:135-146). -/
def strUpdate (m : List (String × PyVal)) (k : String) (v : PyVal) :
    List (String × PyVal) :=
  match m with
  | [] => [(k, v)]
  | (k', v') :: rest => if k' = k then (k', v) :: rest else (k', v') :: strUpdate rest k v

/-- Folding a pair list into a string-keyed map, last write winning. -/
def strFold (acc : List (String × PyVal)) (pairs : List (String × PyVal)) :
    List (String × PyVal) :=
  pairs.foldl (fun m p => strUpdate m p.1 p.2) acc

/-- A string-keyed map as the dynamic dict the extraction builds. -/
def encodePairs (m : List (String × PyVal)) : List (PyVal × PyVal) :=
  m.map (fun p => (PyVal.str p.1, p.2))

/-- The keys of a string-keyed map. -/
def keysOf (m : List (String × PyVal)) : List String := m.map Prod.fst

/-- Lookup in a string-keyed map. -/
def lookupStr (s : String) (m : List (String × PyVal)) : Option PyVal :=
  (m.find? (fun p => p.1 == s)).map Prod.snd

/-- Scenario 1 of the spec (section 8): one portfolio allocating equities 70,
bonds 25, cash 5 (the growth template of agent.py:126-130). -/
def scenario1Portfolio : Portfolio :=
  { portfolio_name := "Growth Simulation Portfolio"
    allocation :=
      [⟨"Large-cap equities", 70⟩, ⟨"Government bonds", 25⟩, ⟨"Cash equivalents", 5⟩]
    rationale := "growth template" }

/-- Scenario 2 of the spec (section 8): the two-portfolio bundle of
tests/test_cli.py:81-108. -/
def scenario2Bundle : PyVal :=
  mkRankBundle
    [("high_return",
      portfolioVal "High Return Portfolio"
        [("Large-cap equities", 70), ("Government bonds", 25), ("Cash equivalents", 5)]
        "Portfolio focused on equity exposure"),
     ("conservative",
      portfolioVal "Conservative Portfolio"
        [("Government bonds", 70), ("Cash equivalents", 30)]
        "Conservative bond-focused portfolio")]

/-- The first portfolio of scenario 2 as a dict. -/
def s2pv1 : PyVal :=
  portfolioVal "High Return Portfolio"
    [("Large-cap equities", 70), ("Government bonds", 25), ("Cash equivalents", 5)]
    "Portfolio focused on equity exposure"

/-- The second portfolio of scenario 2 as a dict. -/
def s2pv2 : PyVal :=
  portfolioVal "Conservative Portfolio"
    [("Government bonds", 70), ("Cash equivalents", 30)]
    "Conservative bond-focused portfolio"

/-- The simulation result of the equities-heavy portfolio of scenario 2. -/
def s2sim1 : SimResult := ⟨57/10, 59/5, "long_term", "v0.1"⟩

/-- The simulation result of the bonds/cash portfolio of scenario 2. -/
def s2sim2 : SimResult := ⟨12/5, 18/5, "long_term", "v0.1"⟩

/-- The validated candidate for the equities-heavy portfolio of scenario 2. -/
def s2cand1 : RankCandidate := ⟨"rank_high_return", "High Return Portfolio", s2sim1⟩

/-- The validated candidate for the bonds/cash portfolio of scenario 2. -/
def s2cand2 : RankCandidate := ⟨"rank_conservative", "Conservative Portfolio", s2sim2⟩

/-- The scored item of the equities-heavy portfolio of scenario 2. -/
def s2item1 : ScoredItem :=
  ⟨"rank_high_return", "High Return Portfolio", 55,
    ⟨⟨57/10, 1, 2/5, 2/5⟩, ⟨59/5, 0, 3/10, 0⟩, ⟨0, 1/2, 1/5, 1/10⟩,
     ⟨5/64, 0, 1/20, 0⟩, ⟨1, 1, 1/20, 1/20⟩⟩⟩

/-- The scored item of the bonds/cash portfolio of scenario 2. -/
def s2item2 : ScoredItem :=
  ⟨"rank_conservative", "Conservative Portfolio", 50,
    ⟨⟨12/5, 0, 2/5, 0⟩, ⟨18/5, 1, 3/10, 3/10⟩, ⟨0, 1/2, 1/5, 1/10⟩,
     ⟨5/23, 1, 1/20, 1/20⟩, ⟨1, 1, 1/20, 1/20⟩⟩⟩

/-- Three bundle items of which the first and third share the id "a" (for
claim C9). -/
def c9pairs : List (String × PyVal) :=
  [("a", portfolioVal "P1" [("Cash equivalents", 100)] "r1"),
   ("b", portfolioVal "P2" [("Government bonds", 100)] "r2"),
   ("a", portfolioVal "P3" [("Large-cap equities", 100)] "r3")]

/-- Claim C1, first trigger: the bundle input is empty or absent (falsy). -/
def condEmptyInput (b : PyVal) : Prop := b.truthy = false

/-- Claim C1, second trigger: the scoring profile is not "v1_balanced". -/
def condUnknownProfile (p : String) : Prop := p ≠ "v1_balanced"

/-- Claim C1, third trigger (first part): the bundle's version field is not
"v0.1". -/
def condVersionWrong (b : PyVal) : Prop :=
  match b with
  | PyVal.dict kvs =>
      PyVal.beq (pyGet kvs (PyVal.str "version") PyVal.pynone) (PyVal.str "v0.1") = false
  | _ => False

/-- Claim C1, third trigger (second part): the items field is missing, not a
list, or empty. -/
def condItemsBad (b : PyVal) : Prop :=
  match b with
  | PyVal.dict kvs =>
      match pyGet kvs (PyVal.str "items") (PyVal.list []) with
      | PyVal.list items => items = []
      | _ => True
  | _ => False

/-- An item that is not a dictionary. -/
def itemNotDict (it : PyVal) : Prop :=
  match it with
  | PyVal.dict _ => False
  | _ => True

/-- An item lacking a truthy id or portfolio field. -/
def itemMissingFields (it : PyVal) : Prop :=
  match it with
  | PyVal.dict kvs =>
      ((pyGet kvs (PyVal.str "id") PyVal.pynone).truthy &&
        (pyGet kvs (PyVal.str "portfolio") PyVal.pynone).truthy) = false
  | _ => False

/-- Claim C1, fourth trigger: some item is not a dictionary or lacks a truthy
id or portfolio field. -/
def condBadItem (b : PyVal) : Prop :=
  match b with
  | PyVal.dict kvs =>
      match pyGet kvs (PyVal.str "items") (PyVal.list []) with
      | PyVal.list items => ∃ it ∈ items, itemNotDict it ∨ itemMissingFields it
      | _ => False
  | _ => False

/-- Claim C1, fifth trigger: the pipeline reaches per-candidate validation
(extraction and every simulation succeed) and zero valid candidates remain. -/
def condZeroValid (b : PyVal) : Prop :=
  ∃ ps bs, validate_and_extract_bundle b = Except.ok ps ∧
    simulateAll ps = Except.ok bs ∧ (validate_bundles bs).1 = []

/-- Decidable version of the bundle-level shape check of claim C3: a
dictionary with version "v0.1" and a non-empty items list whose entries are
each a dictionary carrying a truthy id and a truthy portfolio. -/
def itemOKb (it : PyVal) : Bool :=
  match it with
  | PyVal.dict kvs =>
      (pyGet kvs (PyVal.str "id") PyVal.pynone).truthy &&
        (pyGet kvs (PyVal.str "portfolio") PyVal.pynone).truthy
  | _ => false

/-- The bundle-level shape check of claim C3 as a Boolean predicate. -/
def bundleShapeOK (b : PyVal) : Bool :=
  match b with
  | PyVal.dict kvs =>
      PyVal.beq (pyGet kvs (PyVal.str "version") PyVal.pynone) (PyVal.str "v0.1") &&
        (match pyGet kvs (PyVal.str "items") (PyVal.list []) with
         | PyVal.list items => !items.isEmpty && items.all itemOKb
         | _ => false)
  | _ => false

/-- Sum of the five contributions of a score breakdown (the accumulation of
ranking.py:294-300). -/
def sumContributions (bd : ScoreBreakdown) : ℚ :=
  bd.return_score.contribution + bd.risk_score.contribution +
    bd.drawdown_score.contribution + bd.stability_score.contribution +
    bd.completeness_score.contribution

/-- Three candidates with returns 0, 1, 3 and identical volatilities, making
the middle candidate's normalized return 1/3 (for claim C7). -/
def cands7 : List RankCandidate :=
  [⟨"a", "A", ⟨0, 10, "long_term", "v0.1"⟩⟩,
   ⟨"b", "B", ⟨1, 10, "long_term", "v0.1"⟩⟩,
   ⟨"c", "C", ⟨3, 10, "long_term", "v0.1"⟩⟩]

/-- The scored item of the middle candidate of `cands7`. -/
def c7item : ScoredItem :=
  ⟨"b", "B", 4583/100,
    ⟨⟨1, 1/3, 2/5, 2/15⟩, ⟨10, 1/2, 3/10, 3/20⟩, ⟨0, 1/2, 1/5, 1/10⟩,
     ⟨1/11, 1/2, 1/20, 1/40⟩, ⟨1, 1, 1/20, 1/20⟩⟩⟩

/-- A portfolio with a fully named three-class allocation (for claim C8). -/
def allocPortfolio (e b c : ℚ) : Portfolio :=
  { portfolio_name := "P"
    allocation :=
      [⟨"Large-cap equities", e⟩, ⟨"Government bonds", b⟩, ⟨"Cash equivalents", c⟩]
    rationale := "r" }

/-- The weight-selection rule exactly as claim C10 words it: for a class
substring, the weight of the last allocation entry whose lowercased asset
name contains that substring (0 when none does). -/
def lastMatchWeight (cls : String) (alloc : List AllocEntry) : ℚ :=
  match (alloc.filter (fun a => pyIn cls (lowerList a.asset))).getLast? with
  | Option.some a => a.weight
  | Option.none => 0

/-- The allocation showing the difference between claim C10's wording and the
code: the second entry's name contains both "equities" and "bonds". -/
def c10alloc : List AllocEntry :=
  [⟨"Government bonds", 70⟩, ⟨"equities bonds tracker", 30⟩]

/-- The portfolio carrying `c10alloc`. -/
def c10Portfolio : Portfolio :=
  { portfolio_name := "Mixed", allocation := c10alloc, rationale := "r" }

/-- The three abstract asset classes of the simulator. -/
inductive AssetClass where
  | equities
  | bonds
  | cash
  deriving DecidableEq

/-- The class an allocation entry is assigned to by simulation.py:138-143:
the first of equities, bonds, cash (in that priority order) whose substring
occurs in the lowercased asset name; none when no substring occurs. -/
def entryClass (a : AllocEntry) : Option AssetClass :=
  let asset := lowerList a.asset
  if pyIn "equities" asset then Option.some AssetClass.equities
  else if pyIn "bonds" asset then Option.some AssetClass.bonds
  else if pyIn "cash" asset then Option.some AssetClass.cash
  else Option.none

/-- The weight of the last allocation entry assigned to a class, with a
default for when no entry is assigned to it. -/
def pickWeight (cls : AssetClass) (alloc : List AllocEntry) (d : ℚ) : ℚ :=
  match (alloc.filter (fun a => entryClass a == Option.some cls)).getLast? with
  | Option.some a => a.weight
  | Option.none => d

/-- The weight of the last allocation entry assigned to a class (0 when no
entry is assigned to it). -/
def lastAssignedWeight (cls : AssetClass) (alloc : List AllocEntry) : ℚ :=
  pickWeight cls alloc 0

/- ## Theorems -/

/-- A Python dict update never produces an empty dict. -/
theorem pyUpdate_ne_nil (m : List (PyVal × PyVal)) (k v : PyVal) : pyUpdate m k v ≠ [] := by
  cases m with
  | nil => simp [pyUpdate]
  | cons x xs =>
      unfold pyUpdate
      split <;> simp

/-- A Python dict update never shrinks the dict. -/
theorem pyUpdate_length_le (m : List (PyVal × PyVal)) (k v : PyVal) :
    m.length ≤ (pyUpdate m k v).length := by
  induction m with
  | nil => simp [pyUpdate]
  | cons x xs ih =>
      unfold pyUpdate
      split
      · simp
      · simpa using Nat.succ_le_succ ih

/-- When every item passes the per-item check, the extraction loop succeeds
and never shrinks the accumulated portfolios dict. -/
theorem extractItems_ok_of_all_ok (items : List PyVal) :
    ∀ acc : List (PyVal × PyVal), (∀ it ∈ items, itemOKb it = true) →
      ∃ m, extractItems items acc = Except.ok m ∧ acc.length ≤ m.length := by
  induction items with
  | nil => intro acc _; exact ⟨acc, rfl, le_refl _⟩
  | cons it rest ih =>
      intro acc hall
      have hit : itemOKb it = true := hall it (List.mem_cons_self it rest)
      cases it with
      | dict kvs =>
          have hflds : ((pyGet kvs (PyVal.str "id") PyVal.pynone).truthy &&
              (pyGet kvs (PyVal.str "portfolio") PyVal.pynone).truthy) = true := hit
          obtain ⟨m, hm, hlen⟩ := ih (pyUpdate acc (pyGet kvs (PyVal.str "id") PyVal.pynone)
            (pyGet kvs (PyVal.str "portfolio") PyVal.pynone))
            (fun x hx => hall x (List.mem_cons_of_mem _ hx))
          refine ⟨m, ?_, le_trans (pyUpdate_length_le _ _ _) hlen⟩
          simpa [extractItems, hflds] using hm
      | pynone => simp [itemOKb] at hit
      | str s => simp [itemOKb] at hit
      | num q => simp [itemOKb] at hit
      | list xs => simp [itemOKb] at hit

/-- When every item of a non-empty items list passes the per-item check, the
extraction yields a non-empty portfolios dict. -/
theorem extractItems_ok_ne_nil (it : PyVal) (rest : List PyVal)
    (hall : ∀ x ∈ it :: rest, itemOKb x = true) :
    ∃ m, extractItems (it :: rest) [] = Except.ok m ∧ m ≠ [] := by
  have hit : itemOKb it = true := hall it (List.mem_cons_self it rest)
  cases it with
  | dict kvs =>
      have hflds : ((pyGet kvs (PyVal.str "id") PyVal.pynone).truthy &&
          (pyGet kvs (PyVal.str "portfolio") PyVal.pynone).truthy) = true := hit
      obtain ⟨m, hm, hlen⟩ := extractItems_ok_of_all_ok rest
        (pyUpdate [] (pyGet kvs (PyVal.str "id") PyVal.pynone)
          (pyGet kvs (PyVal.str "portfolio") PyVal.pynone))
        (fun x hx => hall x (List.mem_cons_of_mem _ hx))
      refine ⟨m, by simpa [extractItems, hflds] using hm, ?_⟩
      have h1 : 1 ≤ m.length := by
        calc 1 ≤ (pyUpdate [] (pyGet kvs (PyVal.str "id") PyVal.pynone)
            (pyGet kvs (PyVal.str "portfolio") PyVal.pynone)).length := by
              simp [pyUpdate]
          _ ≤ m.length := hlen
      intro hn
      rw [hn] at h1
      simp at h1
  | pynone => simp [itemOKb] at hit
  | str s => simp [itemOKb] at hit
  | num q => simp [itemOKb] at hit
  | list xs => simp [itemOKb] at hit

/-- Evaluation of the simulator on the scenario-1 portfolio. -/
theorem scenario1_run_eval :
    SimulationEngine.run scenario1Portfolio = ⟨57/10, 59/5, "long_term", "v0.1"⟩ := by
  unfold SimulationEngine.run
  rw [show computeClassWeights scenario1Portfolio.allocation = ⟨70, 25, 5⟩ from rfl]
  norm_num [rawExpectedReturn, rawVolatility, pyRound, pyRoundInt]

/-- C2 (counterexample): on the portfolio allocating equities 70, bonds 25,
cash 5 the simulator does not return expected_return 6.0 together with
volatility 11.8 — the expected return it returns is 5.7, because the raw
value (70*7 + 25*3 + 5*1)/100 is 5.7 (the spec's 5.95 miscomputes its own
formula). -/
theorem scenario1_claimed_values_false :
    ¬ ((SimulationEngine.run scenario1Portfolio).expected_return = 6 ∧
        (SimulationEngine.run scenario1Portfolio).volatility = 59/5) := by
  intro h
  have h1 := h.1
  rw [scenario1_run_eval] at h1
  norm_num at h1

/-- C2 (amended): on the portfolio allocating equities 70, bonds 25, cash 5
the simulator returns expected_return 5.7 (the raw weighted blend
(70*7 + 25*3 + 5*1)/100 = 5.7 exactly, unchanged by rounding) and volatility
11.8 (the raw blend (70*15 + 25*5 + 5*0.5)/100 = 11.775 rounded to one
decimal place). -/
theorem scenario1_simulation_values :
    (SimulationEngine.run scenario1Portfolio).expected_return = 57/10 ∧
      (SimulationEngine.run scenario1Portfolio).volatility = 59/5 ∧
      rawExpectedReturn (computeClassWeights scenario1Portfolio.allocation) = 57/10 ∧
      rawVolatility (computeClassWeights scenario1Portfolio.allocation) = 471/40 ∧
      pyRound (471/40) 1 = 59/5 := by
  rw [scenario1_run_eval]
  rw [show computeClassWeights scenario1Portfolio.allocation = ⟨70, 25, 5⟩ from rfl]
  refine ⟨rfl, rfl, ?_, ?_, ?_⟩ <;>
    norm_num [rawExpectedReturn, rawVolatility, pyRound, pyRoundInt]

/-- Simulation of the scenario-2 equities-heavy portfolio. -/
theorem s2sim1_eval : agentSimulate s2pv1 = Except.ok s2sim1 := by
  show Except.ok (SimulationEngine.run ⟨"",
    [⟨"Large-cap equities", 70⟩, ⟨"Government bonds", 25⟩, ⟨"Cash equivalents", 5⟩], ""⟩) = _
  unfold SimulationEngine.run
  rw [show computeClassWeights
    [⟨"Large-cap equities", (70:ℚ)⟩, ⟨"Government bonds", 25⟩, ⟨"Cash equivalents", 5⟩]
    = ⟨70, 25, 5⟩ from rfl]
  norm_num [rawExpectedReturn, rawVolatility, pyRound, pyRoundInt, s2sim1]

/-- Simulation of the scenario-2 bonds/cash portfolio. -/
theorem s2sim2_eval : agentSimulate s2pv2 = Except.ok s2sim2 := by
  show Except.ok (SimulationEngine.run ⟨"",
    [⟨"Government bonds", 70⟩, ⟨"Cash equivalents", 30⟩], ""⟩) = _
  unfold SimulationEngine.run
  rw [show computeClassWeights [⟨"Government bonds", (70:ℚ)⟩, ⟨"Cash equivalents", 30⟩]
    = ⟨0, 70, 30⟩ from rfl]
  norm_num [rawExpectedReturn, rawVolatility, pyRound, pyRoundInt, s2sim2]

/-- The simulation loop on the two extracted scenario-2 portfolios. -/
theorem s2simAll_eval :
    simulateAll [(PyVal.str "high_return", s2pv1), (PyVal.str "conservative", s2pv2)] =
      Except.ok [("rank_high_return", s2pv1, s2sim1), ("rank_conservative", s2pv2, s2sim2)] := by
  simp [simulateAll, s2sim1_eval, s2sim2_eval, PyVal.fstr]

/-- Validation accepts the scenario-2 equities-heavy portfolio. -/
theorem s2imp1_eval : importBundle "rank_high_return" s2pv1 s2sim1 = Except.ok s2cand1 := by
  show (if (([⟨"Large-cap equities", (70:ℚ)⟩, ⟨"Government bonds", 25⟩,
      ⟨"Cash equivalents", 5⟩] : List AllocEntry).map (fun e => e.weight)).sum = 100
    then _ else _) = _
  norm_num [s2cand1]

/-- Validation accepts the scenario-2 bonds/cash portfolio. -/
theorem s2imp2_eval : importBundle "rank_conservative" s2pv2 s2sim2 = Except.ok s2cand2 := by
  show (if (([⟨"Government bonds", (70:ℚ)⟩,
      ⟨"Cash equivalents", 30⟩] : List AllocEntry).map (fun e => e.weight)).sum = 100
    then _ else _) = _
  norm_num [s2cand2]

/-- The valid/rejected split of the two scenario-2 bundles. -/
theorem s2val_eval :
    validate_bundles [("rank_high_return", s2pv1, s2sim1), ("rank_conservative", s2pv2, s2sim2)] =
      ([s2cand1, s2cand2], []) := by
  simp [validate_bundles, validateBundlesAux, s2imp1_eval, s2imp2_eval]

/-- Scoring of the two scenario-2 candidates. -/
theorem s2score_eval : compute_v1_balanced_scores [s2cand1, s2cand2] = [s2item1, s2item2] := by
  have hr1 : computeRange [(57:ℚ)/10, 12/5] = ⟨12/5, 57/10, NormStatus.normalRange⟩ := by
    simp [computeRange, pyMin, pyMax, min_def, max_def]
    norm_num
  have hr2 : computeRange [(59:ℚ)/5, 18/5] = ⟨18/5, 59/5, NormStatus.normalRange⟩ := by
    simp [computeRange, pyMin, pyMax, min_def, max_def]
    norm_num
  have hr3 : computeRange [stabilityRaw (59/5), stabilityRaw (18/5)] =
      ⟨5/64, 5/23, NormStatus.normalRange⟩ := by
    simp [computeRange, pyMin, pyMax, min_def, max_def, stabilityRaw]
    norm_num
  have hsc1 : scoreCandidate ⟨12/5, 57/10, NormStatus.normalRange⟩
      ⟨18/5, 59/5, NormStatus.normalRange⟩ ⟨5/64, 5/23, NormStatus.normalRange⟩ s2cand1
      = s2item1 := by
    simp [scoreCandidate, s2cand1, s2sim1, s2item1, stabilityRaw]
    refine ⟨?_, ?_, ?_, ?_, ?_, Or.inl ?_⟩ <;> norm_num [pyRound, pyRoundInt]
  have hsc2 : scoreCandidate ⟨12/5, 57/10, NormStatus.normalRange⟩
      ⟨18/5, 59/5, NormStatus.normalRange⟩ ⟨5/64, 5/23, NormStatus.normalRange⟩ s2cand2
      = s2item2 := by
    simp [scoreCandidate, s2cand2, s2sim2, s2item2, stabilityRaw]
    refine ⟨?_, ?_, ?_, ?_⟩ <;> norm_num [pyRound, pyRoundInt]
  have hbase : compute_v1_balanced_scores [s2cand1, s2cand2] =
      [scoreCandidate (computeRange [s2sim1.expected_return, s2sim2.expected_return])
        (computeRange [s2sim1.volatility, s2sim2.volatility])
        (computeRange [stabilityRaw s2sim1.volatility, stabilityRaw s2sim2.volatility]) s2cand1,
       scoreCandidate (computeRange [s2sim1.expected_return, s2sim2.expected_return])
        (computeRange [s2sim1.volatility, s2sim2.volatility])
        (computeRange [stabilityRaw s2sim1.volatility, stabilityRaw s2sim2.volatility]) s2cand2]
      := rfl
  rw [hbase,
    show s2sim1.expected_return = (57:ℚ)/10 from rfl, show s2sim2.expected_return = (12:ℚ)/5 from rfl,
    show s2sim1.volatility = (59:ℚ)/5 from rfl, show s2sim2.volatility = (18:ℚ)/5 from rfl,
    hr1, hr2, hr3, hsc1, hsc2]

/-- The scenario-2 scored items are already in sorted order. -/
theorem s2sort_eval : sortScored [s2item1, s2item2] = [s2item1, s2item2] := by
  apply List.mergeSort_of_sorted
  refine List.pairwise_cons.mpr ⟨?_, List.pairwise_singleton _ _⟩
  intro b hb
  rw [List.mem_singleton] at hb
  subst hb
  show rankLE s2item1 s2item2 = true
  simp [rankLE, s2item1, s2item2]
  norm_num

/-- The full ranking report of scenario 2. -/
theorem s2report_eval :
    rank_bundles scenario2Bundle "v1_balanced" Option.none =
      Except.ok ⟨"ranking_report_v1", "v1_balanced", "foliorank-sdk", 2, 2,
        [⟨s2item1, 1⟩, ⟨s2item2, 2⟩], []⟩ := by
  have hextract : validate_and_extract_bundle scenario2Bundle =
      Except.ok [(PyVal.str "high_return", s2pv1), (PyVal.str "conservative", s2pv2)] := rfl
  simp [rank_bundles, hextract, s2simAll_eval, s2val_eval, s2score_eval, s2sort_eval,
    addRanks, show scenario2Bundle.truthy = true from rfl]

/-- When some item is not a dictionary or lacks a truthy id or portfolio
field, the extraction loop raises a RankingViolation. -/
theorem extractItems_error_of_bad (items : List PyVal) :
    ∀ acc, (∃ it ∈ items, itemNotDict it ∨ itemMissingFields it) →
      ∃ m, extractItems items acc = Except.error (PyErr.rankingViolation m) := by
  induction items with
  | nil => intro acc h; obtain ⟨it, hmem, _⟩ := h; simp at hmem
  | cons it0 rest ih =>
      intro acc h
      cases it0 with
      | dict kvs =>
          by_cases hc : ((pyGet kvs (PyVal.str "id") PyVal.pynone).truthy &&
              (pyGet kvs (PyVal.str "portfolio") PyVal.pynone).truthy) = true
          · have hrest : ∃ it ∈ rest, itemNotDict it ∨ itemMissingFields it := by
              obtain ⟨it, hmem, hbad⟩ := h
              rcases List.mem_cons.mp hmem with heq | hmem'
              · subst heq
                rcases hbad with hbad | hbad
                · simp [itemNotDict] at hbad
                · rw [itemMissingFields] at hbad
                  rw [hc] at hbad
                  simp at hbad
              · exact ⟨it, hmem', hbad⟩
            obtain ⟨m, hm⟩ := ih _ hrest
            exact ⟨m, by simpa [extractItems, hc] using hm⟩
          · refine ⟨"Bundle items must have id and portfolio fields", ?_⟩
            have hc' : ((pyGet kvs (PyVal.str "id") PyVal.pynone).truthy &&
                (pyGet kvs (PyVal.str "portfolio") PyVal.pynone).truthy) = false := by
              revert hc; cases ((pyGet kvs (PyVal.str "id") PyVal.pynone).truthy &&
                (pyGet kvs (PyVal.str "portfolio") PyVal.pynone).truthy) <;> simp
            simp [extractItems, hc']
      | pynone => exact ⟨"Bundle items must be dictionaries", by simp [extractItems]⟩
      | str s => exact ⟨"Bundle items must be dictionaries", by simp [extractItems]⟩
      | num q => exact ⟨"Bundle items must be dictionaries", by simp [extractItems]⟩
      | list xs => exact ⟨"Bundle items must be dictionaries", by simp [extractItems]⟩

/-- A RankingViolation raised by the bundle extraction propagates out of
`rank_bundles` unchanged. -/
theorem rank_bundles_of_extract_error (b : PyVal) (k : Option ℕ) (m : String)
    (htr : b.truthy = true)
    (hex : validate_and_extract_bundle b = Except.error (PyErr.rankingViolation m)) :
    rank_bundles b "v1_balanced" k = Except.error (PyErr.rankingViolation m) := by
  rw [rank_bundles, htr]
  simp only [Bool.not_true, Bool.false_eq_true, if_false]
  rw [if_neg (by simp)]
  rw [hex]

/-- C1: `rank_bundles` raises `RankingViolation` (returning no report)
whenever the bundle input is empty or absent, the scoring profile is unknown,
the version field is not "v0.1", the items field is missing, not a list or
empty, an item is not a dictionary or lacks a truthy id or portfolio field,
or per-candidate validation leaves zero valid candidates. -/
theorem rank_bundles_rankingViolation_conditions (b : PyVal) (p : String) (k : Option ℕ)
    (h : condEmptyInput b ∨ condUnknownProfile p ∨ condVersionWrong b ∨ condItemsBad b ∨
      condBadItem b ∨ condZeroValid b) :
    ∃ msg, rank_bundles b p k = Except.error (PyErr.rankingViolation msg) := by
  by_cases htr : b.truthy = true
  · by_cases hp : p = "v1_balanced"
    · subst hp
      rcases h with h | h | h | h | h | h
      · rw [condEmptyInput, htr] at h
        simp at h
      · exact absurd rfl h
      · cases b with
        | dict kvs =>
            have h' : PyVal.beq (pyGet kvs (PyVal.str "version") PyVal.pynone)
                (PyVal.str "v0.1") = false := h
            refine ⟨"Unsupported bundle version", rank_bundles_of_extract_error _ k _ htr ?_⟩
            rw [validate_and_extract_bundle]
            rw [if_neg (by rw [h']; simp)]
        | pynone => exact (h : False).elim
        | str s => exact (h : False).elim
        | num q => exact (h : False).elim
        | list xs => exact (h : False).elim
      · cases b with
        | dict kvs =>
            by_cases hv : PyVal.beq (pyGet kvs (PyVal.str "version") PyVal.pynone)
                (PyVal.str "v0.1") = true
            · refine ⟨"Bundle must contain at least one item",
                rank_bundles_of_extract_error _ k _ htr ?_⟩
              rw [validate_and_extract_bundle, hv]
              simp only [if_true]
              rcases hmi : pyGet kvs (PyVal.str "items") (PyVal.list [])
                  with _ | s | q | items | kvs2
              · rfl
              · rfl
              · rfl
              · rw [condItemsBad] at h
                rw [hmi] at h
                have h' : items = [] := h
                simp only [hmi, h', List.isEmpty_nil, if_true]
              · rfl
            · have hv' : PyVal.beq (pyGet kvs (PyVal.str "version") PyVal.pynone)
                  (PyVal.str "v0.1") = false := by
                revert hv
                cases PyVal.beq (pyGet kvs (PyVal.str "version") PyVal.pynone)
                  (PyVal.str "v0.1") <;> simp
              refine ⟨"Unsupported bundle version",
                rank_bundles_of_extract_error _ k _ htr ?_⟩
              rw [validate_and_extract_bundle]
              rw [if_neg (by rw [hv']; simp)]
        | pynone => exact (h : False).elim
        | str s => exact (h : False).elim
        | num q => exact (h : False).elim
        | list xs => exact (h : False).elim
      · cases b with
        | dict kvs =>
            by_cases hv : PyVal.beq (pyGet kvs (PyVal.str "version") PyVal.pynone)
                (PyVal.str "v0.1") = true
            · rcases hmi : pyGet kvs (PyVal.str "items") (PyVal.list [])
                  with _ | s | q | items | kvs2 <;> rw [condBadItem, hmi] at h
              · exact (h : False).elim
              · exact (h : False).elim
              · exact (h : False).elim
              · have h' : ∃ it ∈ items, itemNotDict it ∨ itemMissingFields it := h
                have hne : items ≠ [] := by
                  obtain ⟨it, hmem, _⟩ := h'
                  intro he
                  rw [he] at hmem
                  simp at hmem
                obtain ⟨m, hm⟩ := extractItems_error_of_bad items [] h'
                refine ⟨m, rank_bundles_of_extract_error _ k _ htr ?_⟩
                rw [validate_and_extract_bundle, hv]
                simp only [if_true]
                have hie : items.isEmpty = false := by
                  cases items with
                  | nil => exact absurd rfl hne
                  | cons a l => rfl
                simp only [hmi, hie, Bool.false_eq_true, if_false]
                exact hm
              · exact (h : False).elim
            · have hv' : PyVal.beq (pyGet kvs (PyVal.str "version") PyVal.pynone)
                  (PyVal.str "v0.1") = false := by
                revert hv
                cases PyVal.beq (pyGet kvs (PyVal.str "version") PyVal.pynone)
                  (PyVal.str "v0.1") <;> simp
              refine ⟨"Unsupported bundle version",
                rank_bundles_of_extract_error _ k _ htr ?_⟩
              rw [validate_and_extract_bundle]
              rw [if_neg (by rw [hv']; simp)]
        | pynone => exact (h : False).elim
        | str s => exact (h : False).elim
        | num q => exact (h : False).elim
        | list xs => exact (h : False).elim
      · obtain ⟨ps, bs, hex, hsim, hval⟩ := h
        rw [rank_bundles, htr]
        simp only [Bool.not_true, Bool.false_eq_true, if_false]
        rw [if_neg (by simp)]
        rw [hex]
        cases ps with
        | nil => exact ⟨"No valid portfolios found in bundle", by simp⟩
        | cons p0 ps' =>
            refine ⟨"No valid bundles found for ranking", ?_⟩
            simp only [List.isEmpty_cons, Bool.false_eq_true, if_false]
            rw [hsim]
            simp [hval]
    · refine ⟨"Unknown scoring profile: " ++ p, ?_⟩
      rw [rank_bundles, htr]
      simp only [Bool.not_true, Bool.false_eq_true, if_false]
      rw [if_pos]
      simp [hp]
  · have htr' : b.truthy = false := by
      revert htr; cases b.truthy <;> simp
    exact ⟨"No bundle input provided for ranking", by rw [rank_bundles, htr']; simp⟩


/-- Witness for C1: the empty dict is a falsy bundle input, and ranking it
raises a RankingViolation. -/
theorem rank_bundles_rankingViolation_conditions_witness :
    condEmptyInput (PyVal.dict []) ∧
      ∃ msg, rank_bundles (PyVal.dict []) "v1_balanced" Option.none =
        Except.error (PyErr.rankingViolation msg) :=
  ⟨rfl, rank_bundles_rankingViolation_conditions (PyVal.dict []) "v1_balanced" Option.none
    (Or.inl rfl)⟩

/-- C3: on every bundle input passing the bundle-level shape checks (a
dictionary with version "v0.1" and a non-empty items list whose entries each
carry a truthy id and portfolio), `rank_bundles` as the sources execute it
raises `AttributeError` — `ControlledAgent` defines no `simulate` method and
the call at the simulation step is not caught — and never returns a ranking
report. -/
theorem rank_bundles_attributeError_on_valid_bundles (b : PyVal) (k : Option ℕ)
    (h : bundleShapeOK b = true) :
    rank_bundles_src b "v1_balanced" k =
      Except.error (PyErr.attributeError "ControlledAgent object has no attribute simulate") := by
  cases b with
  | dict kvs =>
      rw [bundleShapeOK] at h
      rw [Bool.and_eq_true] at h
      obtain ⟨hv, hitems⟩ := h
      rcases hmi : pyGet kvs (PyVal.str "items") (PyVal.list []) with _ | s | q | items | kvs2 <;>
        rw [hmi] at hitems
      case pynone => simp at hitems
      case str => simp at hitems
      case num => simp at hitems
      case dict => simp at hitems
      case list =>
        rw [Bool.and_eq_true] at hitems
        obtain ⟨hne, hall⟩ := hitems
        have hkvs : kvs ≠ [] := by
          intro hk
          rw [hk] at hv
          simp [pyGet, PyVal.beq] at hv
        have htr : PyVal.truthy (PyVal.dict kvs) = true := by
          simp [PyVal.truthy, hkvs]
        cases items with
        | nil => simp at hne
        | cons it rest =>
            have hall' : ∀ x ∈ it :: rest, itemOKb x = true := by
              intro x hx
              exact List.all_eq_true.mp hall x hx
            obtain ⟨m, hm, hmne⟩ := extractItems_ok_ne_nil it rest hall'
            have hex : validate_and_extract_bundle (PyVal.dict kvs) = Except.ok m := by
              rw [validate_and_extract_bundle, hv]
              simp only [if_true]
              rw [hmi]
              simp [hm]
            rw [rank_bundles_src, htr]
            simp only [Bool.not_true, Bool.false_eq_true, if_false]
            rw [if_neg (by simp)]
            rw [hex]
            simp [hmne]
  | pynone => simp [bundleShapeOK] at h
  | str s => simp [bundleShapeOK] at h
  | num q => simp [bundleShapeOK] at h
  | list xs => simp [bundleShapeOK] at h

/-- Witness for C3: the scenario-2 bundle passes the shape checks, and the
source `rank_bundles` raises `AttributeError` on it. -/
theorem rank_bundles_attributeError_on_valid_bundles_witness :
    bundleShapeOK scenario2Bundle = true ∧
      rank_bundles_src scenario2Bundle "v1_balanced" Option.none =
        Except.error (PyErr.attributeError "ControlledAgent object has no attribute simulate") :=
  ⟨by decide, rank_bundles_attributeError_on_valid_bundles scenario2Bundle Option.none (by decide)⟩

/-- C4: ranking the scenario-2 bundle (one bonds-70/cash-30 portfolio, one
equities-70/bonds-25/cash-5 portfolio) under the v1_balanced profile places
the equities-heavy portfolio at rank 1, ahead of the bonds/cash portfolio. -/
theorem scenario2_equities_heavy_ranks_first :
    (rank_bundles scenario2Bundle "v1_balanced" Option.none).map
        (fun r => r.ranked_items.map (fun ri => (ri.rank, ri.item.portfolio_name)))
      = Except.ok [(1, "High Return Portfolio"), (2, "Conservative Portfolio")] := by
  rw [s2report_eval]
  rfl

/-- The sort comparator of ranking.py:89-93 is transitive. -/
theorem rankLE_trans (a b c : ScoredItem) (hab : rankLE a b = true) (hbc : rankLE b c = true) :
    rankLE a c = true := by
  simp only [rankLE, Bool.or_eq_true, Bool.and_eq_true, decide_eq_true_eq] at hab hbc ⊢
  rcases hab with h1 | ⟨he1, h2⟩
  · rcases hbc with h3 | ⟨he3, _⟩
    · exact Or.inl (h3.trans h1)
    · exact Or.inl (he3 ▸ h1)
  · rcases hbc with h3 | ⟨he3, h4⟩
    · exact Or.inl (he1.symm ▸ h3)
    · refine Or.inr ⟨he1.trans he3, ?_⟩
      rcases h2 with h2 | ⟨hd2, hh2⟩
      · rcases h4 with h4 | ⟨hd4, _⟩
        · exact Or.inl (h4.trans h2)
        · exact Or.inl (hd4 ▸ h2)
      · rcases h4 with h4 | ⟨hd4, hh4⟩
        · exact Or.inl (hd2.symm ▸ h4)
        · exact Or.inr ⟨hd2.trans hd4, hh2.trans hh4⟩

/-- The sort comparator of ranking.py:89-93 is total. -/
theorem rankLE_total (a b : ScoredItem) : (rankLE a b || rankLE b a) = true := by
  simp only [rankLE, Bool.or_eq_true, Bool.and_eq_true, decide_eq_true_eq]
  rcases lt_trichotomy a.total_score b.total_score with h | h | h
  · exact Or.inr (Or.inl h)
  · rcases lt_trichotomy a.score_breakdown.drawdown_score.normalized
        b.score_breakdown.drawdown_score.normalized with hd | hd | hd
    · exact Or.inr (Or.inr ⟨h.symm, Or.inl hd⟩)
    · rcases le_total a.audit_hash b.audit_hash with hh | hh
      · exact Or.inl (Or.inr ⟨h, Or.inr ⟨hd, hh⟩⟩)
      · exact Or.inr (Or.inr ⟨h.symm, Or.inr ⟨hd.symm, hh⟩⟩)
    · exact Or.inl (Or.inr ⟨h, Or.inl hd⟩)
  · exact Or.inl (Or.inl h)

/-- Rank assignment adds no items. -/
theorem mem_addRanks (n : ℕ) (l : List ScoredItem) (y : RankedItem) (hy : y ∈ addRanks n l) :
    y.item ∈ l := by
  induction l generalizing n with
  | nil => simp [addRanks] at hy
  | cons x xs ih =>
      rw [addRanks] at hy
      rcases List.mem_cons.mp hy with h | h
      · subst h; exact List.mem_cons_self _ _
      · exact List.mem_cons_of_mem _ (ih _ h)

/-- Rank assignment preserves pairwise ordering of the underlying items. -/
theorem addRanks_pairwise (R : ScoredItem → ScoredItem → Prop) (n : ℕ) (l : List ScoredItem)
    (h : List.Pairwise R l) :
    List.Pairwise (fun x y => R x.item y.item) (addRanks n l) := by
  induction l generalizing n with
  | nil => exact List.Pairwise.nil
  | cons x xs ih =>
      rw [addRanks]
      rw [List.pairwise_cons] at h
      refine List.pairwise_cons.mpr ⟨?_, ih _ h.2⟩
      intro y hy
      exact h.1 y.item (mem_addRanks _ _ _ hy)

/-- The sort of ranking.py:89-93 produces a list ordered by its comparator. -/
theorem sortScored_sorted (items : List ScoredItem) :
    List.Pairwise (fun x y => rankLE x y = true) (sortScored items) :=
  List.sorted_mergeSort rankLE_trans rankLE_total items

/-- C5: the ranked items of every report are ordered by descending
total_score with ties broken by descending normalized drawdown score and then
ascending audit hash; and on scored candidates with distinct audit hashes the
comparison is a strict total order — exactly one of the two precedes the
other, even when total_score and the drawdown tie-break are equal. -/
theorem ranking_order_strict_total (items : List ScoredItem) (a b : ScoredItem)
    (hne : a.audit_hash ≠ b.audit_hash) :
    List.Pairwise (fun x y => rankLE x y = true) (sortScored items) ∧
      (rankLT a b ∨ rankLT b a) ∧ ¬(rankLT a b ∧ rankLT b a) ∧
      (∀ (binput : PyVal) (prof : String) (k : Option ℕ) (rep : RankingReport),
        rank_bundles binput prof k = Except.ok rep →
        List.Pairwise (fun x y => rankLE x.item y.item = true) rep.ranked_items) := by
  refine ⟨sortScored_sorted items, ?_, ?_, ?_⟩
  · simp only [rankLT]
    rcases lt_trichotomy a.total_score b.total_score with h | h | h
    · exact Or.inr (Or.inl h)
    · rcases lt_trichotomy a.score_breakdown.drawdown_score.normalized
          b.score_breakdown.drawdown_score.normalized with hd | hd | hd
      · exact Or.inr (Or.inr ⟨h.symm, Or.inl hd⟩)
      · rcases hne.lt_or_lt with hh | hh
        · exact Or.inl (Or.inr ⟨h, Or.inr ⟨hd, hh⟩⟩)
        · exact Or.inr (Or.inr ⟨h.symm, Or.inr ⟨hd.symm, hh⟩⟩)
      · exact Or.inl (Or.inr ⟨h, Or.inl hd⟩)
    · exact Or.inl (Or.inl h)
  · rintro ⟨hab, hba⟩
    simp only [rankLT] at hab hba
    rcases hab with h1 | ⟨he1, h2⟩
    · rcases hba with h3 | ⟨he3, _⟩
      · exact absurd (h1.trans h3) (lt_irrefl _)
      · exact absurd (he3 ▸ h1) (lt_irrefl _)
    · rcases hba with h3 | ⟨_, h4⟩
      · exact absurd (he1 ▸ h3) (lt_irrefl _)
      · rcases h2 with h2 | ⟨hd2, hh2⟩
        · rcases h4 with h4 | ⟨hd4, _⟩
          · exact absurd (h2.trans h4) (lt_irrefl _)
          · exact absurd (hd4 ▸ h2) (lt_irrefl _)
        · rcases h4 with h4 | ⟨_, hh4⟩
          · exact absurd (hd2 ▸ h4) (lt_irrefl _)
          · exact absurd (hh2.trans hh4) (lt_irrefl _)
  · intro binput prof k rep hrep
    rw [rank_bundles] at hrep
    split at hrep
    · exact absurd hrep (by simp)
    · split at hrep
      · exact absurd hrep (by simp)
      · split at hrep
        · exact absurd hrep (by simp)
        · split at hrep
          · exact absurd hrep (by simp)
          · split at hrep
            · exact absurd hrep (by simp)
            · split at hrep
              · simp only [] at hrep
                split at hrep
                · exact absurd hrep (by simp)
                · rw [Except.ok.injEq] at hrep
                  subst hrep
                  exact addRanks_pairwise _ 1 _
                    (((sortScored_sorted _)).sublist (List.take_sublist _ _))
              · simp only [] at hrep
                split at hrep
                · exact absurd hrep (by simp)
                · rw [Except.ok.injEq] at hrep
                  subst hrep
                  exact addRanks_pairwise _ 1 _ (sortScored_sorted _)


/-- Witness for C5: the two scenario-2 scored items have distinct audit
hashes, and exactly one of them precedes the other. -/
theorem ranking_order_strict_total_witness :
    s2item1.audit_hash ≠ s2item2.audit_hash ∧
      (rankLT s2item1 s2item2 ∨ rankLT s2item2 s2item1) ∧
      ¬(rankLT s2item1 s2item2 ∧ rankLT s2item2 s2item1) :=
  ⟨by decide, (ranking_order_strict_total [] s2item1 s2item2 (by decide)).2.1,
    (ranking_order_strict_total [] s2item1 s2item2 (by decide)).2.2.1⟩

/-- Python `min` of a nonempty list is an element of it. -/
theorem pyMin_mem (v : ℚ) (vs : List ℚ) : pyMin v vs ∈ v :: vs := by
  induction vs generalizing v with
  | nil => simp [pyMin]
  | cons w ws ih =>
      have h := ih (min v w)
      rw [pyMin] at h ⊢
      rw [List.foldl_cons]
      rcases List.mem_cons.mp h with h | h
      · rcases min_choice v w with hm | hm
        · rw [List.mem_cons]
          exact Or.inl (h.trans hm)
        · rw [List.mem_cons, List.mem_cons]
          exact Or.inr (Or.inl (h.trans hm))
      · exact List.mem_cons_of_mem _ (List.mem_cons_of_mem _ h)

/-- Python `min` of a nonempty list is a lower bound of it. -/
theorem pyMin_le (v : ℚ) (vs : List ℚ) : ∀ x ∈ v :: vs, pyMin v vs ≤ x := by
  induction vs generalizing v with
  | nil => intro x hx; rw [List.mem_singleton] at hx; subst hx; simp [pyMin]
  | cons w ws ih =>
      intro x hx
      have step : pyMin v (w :: ws) = pyMin (min v w) ws := by
        rw [pyMin, pyMin, List.foldl_cons]
      rcases List.mem_cons.mp hx with h | hx'
      · subst h
        calc pyMin x (w :: ws) = pyMin (min x w) ws := step
          _ ≤ min x w := ih (min x w) _ (List.mem_cons_self _ _)
          _ ≤ x := min_le_left _ _
      · rcases List.mem_cons.mp hx' with h | hx''
        · subst h
          calc pyMin v (x :: ws) = pyMin (min v x) ws := by rw [pyMin, pyMin, List.foldl_cons]
            _ ≤ min v x := ih (min v x) _ (List.mem_cons_self _ _)
            _ ≤ x := min_le_right _ _
        · calc pyMin v (w :: ws) = pyMin (min v w) ws := step
            _ ≤ x := ih (min v w) x (List.mem_cons_of_mem _ hx'')

/-- Python `max` of a nonempty list is an element of it. -/
theorem pyMax_mem (v : ℚ) (vs : List ℚ) : pyMax v vs ∈ v :: vs := by
  induction vs generalizing v with
  | nil => simp [pyMax]
  | cons w ws ih =>
      have h := ih (max v w)
      rw [pyMax] at h ⊢
      rw [List.foldl_cons]
      rcases List.mem_cons.mp h with h | h
      · rcases max_choice v w with hm | hm
        · rw [List.mem_cons]
          exact Or.inl (h.trans hm)
        · rw [List.mem_cons, List.mem_cons]
          exact Or.inr (Or.inl (h.trans hm))
      · exact List.mem_cons_of_mem _ (List.mem_cons_of_mem _ h)

/-- Python `max` of a nonempty list is an upper bound of it. -/
theorem le_pyMax (v : ℚ) (vs : List ℚ) : ∀ x ∈ v :: vs, x ≤ pyMax v vs := by
  induction vs generalizing v with
  | nil => intro x hx; rw [List.mem_singleton] at hx; subst hx; simp [pyMax]
  | cons w ws ih =>
      intro x hx
      have step : pyMax v (w :: ws) = pyMax (max v w) ws := by
        rw [pyMax, pyMax, List.foldl_cons]
      rcases List.mem_cons.mp hx with h | hx'
      · subst h
        calc x ≤ max x w := le_max_left _ _
          _ ≤ pyMax (max x w) ws := ih (max x w) _ (List.mem_cons_self _ _)
          _ = pyMax x (w :: ws) := (by rw [pyMax, pyMax, List.foldl_cons])
      · rcases List.mem_cons.mp hx' with h | hx''
        · subst h
          calc x ≤ max v x := le_max_right _ _
            _ ≤ pyMax (max v x) ws := ih (max v x) _ (List.mem_cons_self _ _)
            _ = pyMax v (x :: ws) := (by rw [pyMax, pyMax, List.foldl_cons])
        · calc x ≤ pyMax (max v w) ws := ih (max v w) x (List.mem_cons_of_mem _ hx'')
            _ = pyMax v (w :: ws) := step.symm

/-- When every raw value equals the head, the range computation lands in the
identical branch of ranking.py:239-240. -/
theorem computeRange_identical (v : ℚ) (vs : List ℚ) (h : ∀ x ∈ v :: vs, x = v) :
    computeRange (v :: vs) = ⟨v, v, NormStatus.identical⟩ := by
  have hmn : pyMin v vs = v := h _ (pyMin_mem v vs)
  have hmx : pyMax v vs = v := h _ (pyMax_mem v vs)
  rw [computeRange]
  simp [hmn, hmx]

/-- When two raw values differ, the range computation returns the exact
minimum and maximum with the normal status of ranking.py:242. -/
theorem computeRange_normal (v : ℚ) (vs : List ℚ)
    (h : ∃ x ∈ v :: vs, ∃ y ∈ v :: vs, x ≠ y) :
    ∃ lo hi, computeRange (v :: vs) = ⟨lo, hi, NormStatus.normalRange⟩ ∧
      lo ∈ v :: vs ∧ hi ∈ v :: vs ∧ ∀ x ∈ v :: vs, lo ≤ x ∧ x ≤ hi := by
  have hne : pyMin v vs ≠ pyMax v vs := by
    intro he
    obtain ⟨x, hx, y, hy, hxy⟩ := h
    have h1 : x = pyMin v vs := le_antisymm (he ▸ le_pyMax v vs x hx) (pyMin_le v vs x hx)
    have h2 : y = pyMin v vs := le_antisymm (he ▸ le_pyMax v vs y hy) (pyMin_le v vs y hy)
    exact hxy (h1.trans h2.symm)
  refine ⟨pyMin v vs, pyMax v vs, ?_, pyMin_mem v vs, pyMax_mem v vs,
    fun x hx => ⟨pyMin_le v vs x hx, le_pyMax v vs x hx⟩⟩
  rw [computeRange]
  simp only [if_neg hne]


/-- C6: for every non-empty accepted candidate set and each
cross-candidate-normalized metric (return; risk, i.e. inverted volatility;
stability), if every candidate shares the same raw value the normalized value
is exactly 1/2 for all of them; otherwise it is (raw - min)/(max - min) for
return and stability and 1 - (raw - min)/(max - min) for risk, with min and
max ranging over the entire candidate set of the call. -/
theorem normalization_rule_v1_balanced (bundles : List RankCandidate) (c : RankCandidate) (hc : c ∈ bundles) :
    ∃ item ∈ compute_v1_balanced_scores bundles,
      item.audit_hash = c.audit_hash ∧
      ((∀ c₁ ∈ bundles, ∀ c₂ ∈ bundles, c₁.sim.expected_return = c₂.sim.expected_return) →
        item.score_breakdown.return_score.normalized = 1/2) ∧
      ((∃ c₁ ∈ bundles, ∃ c₂ ∈ bundles, c₁.sim.expected_return ≠ c₂.sim.expected_return) →
        ∃ lo hi, lo ∈ bundles.map (fun b => b.sim.expected_return) ∧
          hi ∈ bundles.map (fun b => b.sim.expected_return) ∧
          (∀ x ∈ bundles.map (fun b => b.sim.expected_return), lo ≤ x ∧ x ≤ hi) ∧
          item.score_breakdown.return_score.normalized =
            (c.sim.expected_return - lo) / (hi - lo)) ∧
      ((∀ c₁ ∈ bundles, ∀ c₂ ∈ bundles, c₁.sim.volatility = c₂.sim.volatility) →
        item.score_breakdown.risk_score.normalized = 1/2) ∧
      ((∃ c₁ ∈ bundles, ∃ c₂ ∈ bundles, c₁.sim.volatility ≠ c₂.sim.volatility) →
        ∃ lo hi, lo ∈ bundles.map (fun b => b.sim.volatility) ∧
          hi ∈ bundles.map (fun b => b.sim.volatility) ∧
          (∀ x ∈ bundles.map (fun b => b.sim.volatility), lo ≤ x ∧ x ≤ hi) ∧
          item.score_breakdown.risk_score.normalized =
            1 - (c.sim.volatility - lo) / (hi - lo)) ∧
      ((∀ c₁ ∈ bundles, ∀ c₂ ∈ bundles,
          stabilityRaw c₁.sim.volatility = stabilityRaw c₂.sim.volatility) →
        item.score_breakdown.stability_score.normalized = 1/2) ∧
      ((∃ c₁ ∈ bundles, ∃ c₂ ∈ bundles,
          stabilityRaw c₁.sim.volatility ≠ stabilityRaw c₂.sim.volatility) →
        ∃ lo hi, lo ∈ bundles.map (fun b => stabilityRaw b.sim.volatility) ∧
          hi ∈ bundles.map (fun b => stabilityRaw b.sim.volatility) ∧
          (∀ x ∈ bundles.map (fun b => stabilityRaw b.sim.volatility), lo ≤ x ∧ x ≤ hi) ∧
          item.score_breakdown.stability_score.normalized =
            (stabilityRaw c.sim.volatility - lo) / (hi - lo)) := by
  cases bundles with
  | nil => simp at hc
  | cons b0 bs =>
      have hcomp : compute_v1_balanced_scores (b0 :: bs) =
          (b0 :: bs).map (scoreCandidate
            (computeRange ((b0 :: bs).map fun b => b.sim.expected_return))
            (computeRange ((b0 :: bs).map fun b => b.sim.volatility))
            (computeRange ((b0 :: bs).map fun b => stabilityRaw b.sim.volatility))) := rfl
      rw [hcomp]
      refine ⟨_, List.mem_map_of_mem _ hc, ?_, ?_, ?_, ?_, ?_, ?_, ?_⟩
      · rfl
      · intro hall
        rw [show List.map (fun b => b.sim.expected_return) (b0 :: bs)
            = b0.sim.expected_return :: List.map (fun b => b.sim.expected_return) bs from rfl,
          computeRange_identical (b0.sim.expected_return)
            (List.map (fun b => b.sim.expected_return) bs) (by
              intro x hx
              rcases List.mem_cons.mp hx with h | h
              · exact h
              · obtain ⟨b, hb, rfl⟩ := List.mem_map.mp h
                exact hall b (List.mem_cons_of_mem _ hb) b0 (List.mem_cons_self _ _))]
        rfl
      · rintro ⟨c₁, h₁, c₂, h₂, hne⟩
        rw [show List.map (fun b => b.sim.expected_return) (b0 :: bs)
            = b0.sim.expected_return :: List.map (fun b => b.sim.expected_return) bs from rfl]
        obtain ⟨lo, hi, heq, hlomem, hhimem, hbounds⟩ := computeRange_normal
          (b0.sim.expected_return) (List.map (fun b => b.sim.expected_return) bs)
          ⟨c₁.sim.expected_return, List.mem_map_of_mem (fun b => b.sim.expected_return) h₁,
           c₂.sim.expected_return, List.mem_map_of_mem (fun b => b.sim.expected_return) h₂, hne⟩
        rw [heq]
        exact ⟨lo, hi, hlomem, hhimem, hbounds, rfl⟩
      · intro hall
        rw [show List.map (fun b => b.sim.volatility) (b0 :: bs)
            = b0.sim.volatility :: List.map (fun b => b.sim.volatility) bs from rfl,
          computeRange_identical (b0.sim.volatility)
            (List.map (fun b => b.sim.volatility) bs) (by
              intro x hx
              rcases List.mem_cons.mp hx with h | h
              · exact h
              · obtain ⟨b, hb, rfl⟩ := List.mem_map.mp h
                exact hall b (List.mem_cons_of_mem _ hb) b0 (List.mem_cons_self _ _))]
        rfl
      · rintro ⟨c₁, h₁, c₂, h₂, hne⟩
        rw [show List.map (fun b => b.sim.volatility) (b0 :: bs)
            = b0.sim.volatility :: List.map (fun b => b.sim.volatility) bs from rfl]
        obtain ⟨lo, hi, heq, hlomem, hhimem, hbounds⟩ := computeRange_normal
          (b0.sim.volatility) (List.map (fun b => b.sim.volatility) bs)
          ⟨c₁.sim.volatility, List.mem_map_of_mem (fun b => b.sim.volatility) h₁,
           c₂.sim.volatility, List.mem_map_of_mem (fun b => b.sim.volatility) h₂, hne⟩
        rw [heq]
        exact ⟨lo, hi, hlomem, hhimem, hbounds, rfl⟩
      · intro hall
        rw [show List.map (fun b => stabilityRaw b.sim.volatility) (b0 :: bs)
            = stabilityRaw b0.sim.volatility ::
              List.map (fun b => stabilityRaw b.sim.volatility) bs from rfl,
          computeRange_identical (stabilityRaw b0.sim.volatility)
            (List.map (fun b => stabilityRaw b.sim.volatility) bs) (by
              intro x hx
              rcases List.mem_cons.mp hx with h | h
              · exact h
              · obtain ⟨b, hb, rfl⟩ := List.mem_map.mp h
                exact hall b (List.mem_cons_of_mem _ hb) b0 (List.mem_cons_self _ _))]
        rfl
      · rintro ⟨c₁, h₁, c₂, h₂, hne⟩
        rw [show List.map (fun b => stabilityRaw b.sim.volatility) (b0 :: bs)
            = stabilityRaw b0.sim.volatility ::
              List.map (fun b => stabilityRaw b.sim.volatility) bs from rfl]
        obtain ⟨lo, hi, heq, hlomem, hhimem, hbounds⟩ := computeRange_normal
          (stabilityRaw b0.sim.volatility)
          (List.map (fun b => stabilityRaw b.sim.volatility) bs)
          ⟨stabilityRaw c₁.sim.volatility,
            List.mem_map_of_mem (fun b => stabilityRaw b.sim.volatility) h₁,
           stabilityRaw c₂.sim.volatility,
            List.mem_map_of_mem (fun b => stabilityRaw b.sim.volatility) h₂, hne⟩
        rw [heq]
        exact ⟨lo, hi, hlomem, hhimem, hbounds, rfl⟩


/-- Witness for C6: instantiation on the two scenario-2 candidates (their
returns and volatilities differ, their other hypotheses hold trivially). -/
theorem normalization_rule_v1_balanced_witness :
    ∃ item ∈ compute_v1_balanced_scores [s2cand1, s2cand2],
      item.audit_hash = s2cand1.audit_hash ∧
      ((∀ c₁ ∈ [s2cand1, s2cand2], ∀ c₂ ∈ [s2cand1, s2cand2],
          c₁.sim.expected_return = c₂.sim.expected_return) →
        item.score_breakdown.return_score.normalized = 1/2) ∧
      ((∃ c₁ ∈ [s2cand1, s2cand2], ∃ c₂ ∈ [s2cand1, s2cand2],
          c₁.sim.expected_return ≠ c₂.sim.expected_return) →
        ∃ lo hi, lo ∈ [s2cand1, s2cand2].map (fun b => b.sim.expected_return) ∧
          hi ∈ [s2cand1, s2cand2].map (fun b => b.sim.expected_return) ∧
          (∀ x ∈ [s2cand1, s2cand2].map (fun b => b.sim.expected_return), lo ≤ x ∧ x ≤ hi) ∧
          item.score_breakdown.return_score.normalized =
            (s2cand1.sim.expected_return - lo) / (hi - lo)) ∧
      ((∀ c₁ ∈ [s2cand1, s2cand2], ∀ c₂ ∈ [s2cand1, s2cand2],
          c₁.sim.volatility = c₂.sim.volatility) →
        item.score_breakdown.risk_score.normalized = 1/2) ∧
      ((∃ c₁ ∈ [s2cand1, s2cand2], ∃ c₂ ∈ [s2cand1, s2cand2],
          c₁.sim.volatility ≠ c₂.sim.volatility) →
        ∃ lo hi, lo ∈ [s2cand1, s2cand2].map (fun b => b.sim.volatility) ∧
          hi ∈ [s2cand1, s2cand2].map (fun b => b.sim.volatility) ∧
          (∀ x ∈ [s2cand1, s2cand2].map (fun b => b.sim.volatility), lo ≤ x ∧ x ≤ hi) ∧
          item.score_breakdown.risk_score.normalized =
            1 - (s2cand1.sim.volatility - lo) / (hi - lo)) ∧
      ((∀ c₁ ∈ [s2cand1, s2cand2], ∀ c₂ ∈ [s2cand1, s2cand2],
          stabilityRaw c₁.sim.volatility = stabilityRaw c₂.sim.volatility) →
        item.score_breakdown.stability_score.normalized = 1/2) ∧
      ((∃ c₁ ∈ [s2cand1, s2cand2], ∃ c₂ ∈ [s2cand1, s2cand2],
          stabilityRaw c₁.sim.volatility ≠ stabilityRaw c₂.sim.volatility) →
        ∃ lo hi, lo ∈ [s2cand1, s2cand2].map (fun b => stabilityRaw b.sim.volatility) ∧
          hi ∈ [s2cand1, s2cand2].map (fun b => stabilityRaw b.sim.volatility) ∧
          (∀ x ∈ [s2cand1, s2cand2].map (fun b => stabilityRaw b.sim.volatility),
            lo ≤ x ∧ x ≤ hi) ∧
          item.score_breakdown.stability_score.normalized =
            (stabilityRaw s2cand1.sim.volatility - lo) / (hi - lo)) :=
  normalization_rule_v1_balanced [s2cand1, s2cand2] s2cand1 (List.mem_cons_self _ _)

/-- Evaluation of the middle `cands7` scored item. -/
theorem c7item_eval : (compute_v1_balanced_scores cands7).getD 1 default = c7item := by
  have hr1 : computeRange [(0:ℚ), 1, 3] = ⟨0, 3, NormStatus.normalRange⟩ := by
    simp [computeRange, pyMin, pyMax, min_def, max_def]
  have hr2 : computeRange [(10:ℚ), 10, 10] = ⟨10, 10, NormStatus.identical⟩ := by
    simp [computeRange, pyMin, pyMax, min_def, max_def]
  have hr3 : computeRange [stabilityRaw 10, stabilityRaw 10, stabilityRaw 10] =
      ⟨1/11, 1/11, NormStatus.identical⟩ := by
    simp [computeRange, pyMin, pyMax, min_def, max_def, stabilityRaw]
    norm_num
  show scoreCandidate (computeRange [(0:ℚ), 1, 3]) (computeRange [(10:ℚ), 10, 10])
      (computeRange [stabilityRaw 10, stabilityRaw 10, stabilityRaw 10])
      ⟨"b", "B", ⟨1, 10, "long_term", "v0.1"⟩⟩ = c7item
  rw [hr1, hr2, hr3]
  simp [scoreCandidate, c7item, stabilityRaw]
  refine ⟨?_, ?_, ?_, ?_, ?_, ?_⟩ <;> norm_num [pyRound, pyRoundInt]

/-- C7 (counterexample): for the middle candidate of `cands7` (returns 0, 1,
3; equal volatilities) the five contributions sum to 11/24, but the reported
total_score is the rounded 45.83, whose hundredth is 4583/10000 — so the sum
of contributions does not equal the reported total_score divided by 100. -/
theorem breakdown_sum_not_reported_total :
    sumContributions ((compute_v1_balanced_scores cands7).getD 1 default).score_breakdown ≠
      ((compute_v1_balanced_scores cands7).getD 1 default).total_score / 100 := by
  rw [c7item_eval]
  norm_num [sumContributions, c7item]


/-- C7 (amended): each per-metric contribution recorded in the score
breakdown equals weight * normalized for that metric, and the reported
total_score is 100 times the sum of the five contributions rounded to two
decimal places (the sum of contributions equals the pre-rounding total_score
divided by 100, not the reported one). -/
theorem breakdown_contributions_amended (bundles : List RankCandidate) (item : ScoredItem)
    (hitem : item ∈ compute_v1_balanced_scores bundles) :
    item.score_breakdown.return_score.contribution =
        item.score_breakdown.return_score.weight *
          item.score_breakdown.return_score.normalized ∧
      item.score_breakdown.risk_score.contribution =
        item.score_breakdown.risk_score.weight *
          item.score_breakdown.risk_score.normalized ∧
      item.score_breakdown.drawdown_score.contribution =
        item.score_breakdown.drawdown_score.weight *
          item.score_breakdown.drawdown_score.normalized ∧
      item.score_breakdown.stability_score.contribution =
        item.score_breakdown.stability_score.weight *
          item.score_breakdown.stability_score.normalized ∧
      item.score_breakdown.completeness_score.contribution =
        item.score_breakdown.completeness_score.weight *
          item.score_breakdown.completeness_score.normalized ∧
      item.total_score = pyRound (100 * sumContributions item.score_breakdown) 2 := by
  obtain ⟨c, hcmem, rfl⟩ := List.mem_map.mp hitem
  refine ⟨?_, ?_, ?_, ?_, ?_, ?_⟩ <;> simp [scoreCandidate, sumContributions] <;> ring_nf


/-- Witness for C7: the first scored item of `cands7` is a member of the
scored list, and its breakdown satisfies the amended claim. -/
theorem breakdown_contributions_amended_witness :
    (compute_v1_balanced_scores cands7).getD 0 default ∈ compute_v1_balanced_scores cands7 ∧
      ((compute_v1_balanced_scores cands7).getD 0
          default).score_breakdown.return_score.contribution =
        ((compute_v1_balanced_scores cands7).getD 0
            default).score_breakdown.return_score.weight *
          ((compute_v1_balanced_scores cands7).getD 0
              default).score_breakdown.return_score.normalized ∧
      ((compute_v1_balanced_scores cands7).getD 0 default).total_score =
        pyRound (100 * sumContributions
          (((compute_v1_balanced_scores cands7).getD 0 default).score_breakdown)) 2 :=
  ⟨List.mem_cons_self _ _,
    (breakdown_contributions_amended cands7 _ (List.mem_cons_self _ _)).1,
    (breakdown_contributions_amended cands7 _ (List.mem_cons_self _ _)).2.2.2.2.2⟩

/-- Python rounding never goes below the floor. -/
theorem floor_le_pyRoundInt (q : ℚ) : ⌊q⌋ ≤ pyRoundInt q := by
  unfold pyRoundInt
  simp only []
  split_ifs <;> omega

/-- Python rounding never exceeds the floor plus one. -/
theorem pyRoundInt_le_floor_add_one (q : ℚ) : pyRoundInt q ≤ ⌊q⌋ + 1 := by
  unfold pyRoundInt
  simp only []
  split_ifs <;> omega

/-- Python rounding to an integer is monotone. -/
theorem pyRoundInt_mono {q q' : ℚ} (h : q ≤ q') : pyRoundInt q ≤ pyRoundInt q' := by
  rcases lt_or_le (⌊q⌋) (⌊q'⌋) with hf | hf
  · calc pyRoundInt q ≤ ⌊q⌋ + 1 := pyRoundInt_le_floor_add_one q
      _ ≤ ⌊q'⌋ := by omega
      _ ≤ pyRoundInt q' := floor_le_pyRoundInt q'
  · have hfe : ⌊q⌋ = ⌊q'⌋ := le_antisymm (Int.floor_le_floor h) hf
    unfold pyRoundInt
    simp only []
    rw [hfe]
    have hr : q - (⌊q'⌋ : ℚ) ≤ q' - (⌊q'⌋ : ℚ) := by linarith
    split_ifs <;> first | omega | (exfalso; linarith)

/-- Python `round(-, n)` is monotone. -/
theorem pyRound_mono {q q' : ℚ} (n : ℕ) (h : q ≤ q') : pyRound q n ≤ pyRound q' n := by
  unfold pyRound
  have hle : pyRoundInt (q * 10 ^ n) ≤ pyRoundInt (q' * 10 ^ n) :=
    pyRoundInt_mono (mul_le_mul_of_nonneg_right h (by positivity))
  have hc : ((pyRoundInt (q * 10 ^ n) : ℚ)) ≤ (pyRoundInt (q' * 10 ^ n) : ℚ) := by
    exact_mod_cast hle
  have h10 : (0:ℚ) ≤ 10 ^ n := by positivity
  exact div_le_div_of_nonneg_right hc h10


/-- C8 (amended): over valid allocations summing to 100, strictly increasing
the equities weight while holding the bonds:cash proportion fixed strictly
increases the raw (pre-rounding) expected_return and volatility; the returned
(rounded to one decimal) expected_return and volatility are monotone
non-decreasing, but rounding can absorb a raw increase smaller than 0.1. -/
theorem monotonicity_equities_weight_amended (e b c e' b' c' : ℚ)
    (_he : 0 ≤ e) (hb : 0 ≤ b) (hc : 0 ≤ c) (_he2 : 0 ≤ e') (hb2 : 0 ≤ b') (hc2 : 0 ≤ c')
    (hs : e + b + c = 100) (hs2 : e' + b' + c' = 100) (hlt : e < e')
    (hr : b * c' = b' * c) :
    computeClassWeights (allocPortfolio e b c).allocation = ⟨e, b, c⟩ ∧
      rawExpectedReturn ⟨e, b, c⟩ < rawExpectedReturn ⟨e', b', c'⟩ ∧
      rawVolatility ⟨e, b, c⟩ < rawVolatility ⟨e', b', c'⟩ ∧
      (SimulationEngine.run (allocPortfolio e b c)).expected_return ≤
        (SimulationEngine.run (allocPortfolio e' b' c')).expected_return ∧
      (SimulationEngine.run (allocPortfolio e b c)).volatility ≤
        (SimulationEngine.run (allocPortfolio e' b' c')).volatility := by
  have hbc : b' ≤ b ∧ c' ≤ c := by
    rcases eq_or_lt_of_le hc with hc0 | hcpos
    · have hc0' : c = 0 := hc0.symm
      have hz : b * c' = 0 := by rw [hr, hc0', mul_zero]
      rcases mul_eq_zero.mp hz with hb0 | hc'0
      · exfalso
        have : e = 100 - c := by linarith [hs, hb0]
        linarith
      · constructor <;> linarith
    · have hkey : c' * (b + c) = c * (b' + c') := by linear_combination hr
      have hsum : b' + c' < b + c := by linarith
      have hcle : c' ≤ c := by nlinarith [hkey, mul_lt_mul_of_pos_left hsum hcpos]
      have hble : b' ≤ b := by nlinarith [hr, hcpos, mul_le_mul_of_nonneg_left hcle hb]
      exact ⟨hble, hcle⟩
  obtain ⟨hble, hcle⟩ := hbc
  have hret : rawExpectedReturn ⟨e, b, c⟩ < rawExpectedReturn ⟨e', b', c'⟩ := by
    unfold rawExpectedReturn
    simp only []
    linarith
  have hvol : rawVolatility ⟨e, b, c⟩ < rawVolatility ⟨e', b', c'⟩ := by
    unfold rawVolatility
    simp only []
    linarith
  refine ⟨rfl, hret, hvol, ?_, ?_⟩
  · show pyRound (rawExpectedReturn ⟨e, b, c⟩) 1 ≤ pyRound (rawExpectedReturn ⟨e', b', c'⟩) 1
    exact pyRound_mono 1 (le_of_lt hret)
  · show pyRound (rawVolatility ⟨e, b, c⟩) 1 ≤ pyRound (rawVolatility ⟨e', b', c'⟩) 1
    exact pyRound_mono 1 (le_of_lt hvol)

/-- C8 (counterexample): from allocation equities 23 / cash 77 to equities
24 / cash 76 (both valid, equities strictly increased, bonds:cash proportion
fixed at zero bonds), the returned expected_return does not strictly
increase: the raw values 2.38 and 2.44 both round to 2.4. -/
theorem monotonicity_returned_counterexample :
    (23:ℚ) + 0 + 77 = 100 ∧ (24:ℚ) + 0 + 76 = 100 ∧ ((23:ℚ) < 24) ∧
      ((0:ℚ) * 76 = 0 * 77) ∧
      (SimulationEngine.run (allocPortfolio 23 0 77)).expected_return =
        (SimulationEngine.run (allocPortfolio 24 0 76)).expected_return := by
  refine ⟨by norm_num, by norm_num, by norm_num, by norm_num, ?_⟩
  show pyRound (rawExpectedReturn ⟨23, 0, 77⟩) 1 = pyRound (rawExpectedReturn ⟨24, 0, 76⟩) 1
  norm_num [rawExpectedReturn, pyRound, pyRoundInt]


/-- Witness for C8: from allocation (50, 40, 10) to (70, 24, 6) — equities
up, bonds:cash proportion fixed (40*6 = 24*10) — the raw metrics strictly
increase and the returned metrics do not decrease. -/
theorem monotonicity_equities_weight_amended_witness :
    computeClassWeights (allocPortfolio 50 40 10).allocation = ⟨50, 40, 10⟩ ∧
      rawExpectedReturn ⟨50, 40, 10⟩ < rawExpectedReturn ⟨70, 24, 6⟩ ∧
      rawVolatility ⟨50, 40, 10⟩ < rawVolatility ⟨70, 24, 6⟩ ∧
      (SimulationEngine.run (allocPortfolio 50 40 10)).expected_return ≤
        (SimulationEngine.run (allocPortfolio 70 24 6)).expected_return ∧
      (SimulationEngine.run (allocPortfolio 50 40 10)).volatility ≤
        (SimulationEngine.run (allocPortfolio 70 24 6)).volatility :=
  monotonicity_equities_weight_amended 50 40 10 70 24 6 (by norm_num) (by norm_num)
    (by norm_num) (by norm_num) (by norm_num) (by norm_num) (by norm_num) (by norm_num)
    (by norm_num) (by norm_num)

/-- Unfolding of the last-assigned-weight selection over a cons cell. -/
theorem pickWeight_cons (cls : AssetClass) (a : AllocEntry) (rest : List AllocEntry) (d : ℚ) :
    pickWeight cls (a :: rest) d =
      pickWeight cls rest (if entryClass a == Option.some cls then a.weight else d) := by
  by_cases hp : (entryClass a == Option.some cls) = true
  · rw [pickWeight, pickWeight, List.filter_cons, if_pos hp, if_pos hp]
    cases hf : (rest.filter (fun x => entryClass x == Option.some cls)) with
    | nil => simp [hf]
    | cons y ys =>
        rw [List.getLast?_cons_cons]
        cases hgl : (y :: ys).getLast? with
        | none => simp at hgl
        | some z => rfl
  · rw [pickWeight, pickWeight, List.filter_cons, if_neg hp, if_neg hp]

/-- The equities accumulator after one classification step of
simulation.py:134-143. -/
theorem classStep_equities (w : ClassWeights) (a : AllocEntry) :
    ((fun (w : ClassWeights) (item : AllocEntry) =>
      let asset := lowerList item.asset
      if pyIn "equities" asset then { w with equities := item.weight }
      else if pyIn "bonds" asset then { w with bonds := item.weight }
      else if pyIn "cash" asset then { w with cash := item.weight }
      else w) w a).equities =
      if entryClass a == Option.some AssetClass.equities then a.weight else w.equities := by
  by_cases h1 : pyIn "equities" (lowerList a.asset) = true
  · simp [entryClass, h1]
  · by_cases h2 : pyIn "bonds" (lowerList a.asset) = true
    · simp [entryClass, h1, h2]
    · by_cases h3 : pyIn "cash" (lowerList a.asset) = true
      · simp [entryClass, h1, h2, h3]
      · simp [entryClass, h1, h2, h3]

/-- The bonds accumulator after one classification step. -/
theorem classStep_bonds (w : ClassWeights) (a : AllocEntry) :
    ((fun (w : ClassWeights) (item : AllocEntry) =>
      let asset := lowerList item.asset
      if pyIn "equities" asset then { w with equities := item.weight }
      else if pyIn "bonds" asset then { w with bonds := item.weight }
      else if pyIn "cash" asset then { w with cash := item.weight }
      else w) w a).bonds =
      if entryClass a == Option.some AssetClass.bonds then a.weight else w.bonds := by
  by_cases h1 : pyIn "equities" (lowerList a.asset) = true
  · simp [entryClass, h1]
  · by_cases h2 : pyIn "bonds" (lowerList a.asset) = true
    · simp [entryClass, h1, h2]
    · by_cases h3 : pyIn "cash" (lowerList a.asset) = true
      · simp [entryClass, h1, h2, h3]
      · simp [entryClass, h1, h2, h3]

/-- The cash accumulator after one classification step. -/
theorem classStep_cash (w : ClassWeights) (a : AllocEntry) :
    ((fun (w : ClassWeights) (item : AllocEntry) =>
      let asset := lowerList item.asset
      if pyIn "equities" asset then { w with equities := item.weight }
      else if pyIn "bonds" asset then { w with bonds := item.weight }
      else if pyIn "cash" asset then { w with cash := item.weight }
      else w) w a).cash =
      if entryClass a == Option.some AssetClass.cash then a.weight else w.cash := by
  by_cases h1 : pyIn "equities" (lowerList a.asset) = true
  · simp [entryClass, h1]
  · by_cases h2 : pyIn "bonds" (lowerList a.asset) = true
    · simp [entryClass, h1, h2]
    · by_cases h3 : pyIn "cash" (lowerList a.asset) = true
      · simp [entryClass, h1, h2, h3]
      · simp [entryClass, h1, h2, h3]

/-- The classification fold computes, per class, the weight of the last entry
assigned to that class (with the accumulator as default). -/
theorem computeClassWeights_pick (alloc : List AllocEntry) : ∀ w : ClassWeights,
    alloc.foldl (fun (w : ClassWeights) (item : AllocEntry) =>
      let asset := lowerList item.asset
      if pyIn "equities" asset then { w with equities := item.weight }
      else if pyIn "bonds" asset then { w with bonds := item.weight }
      else if pyIn "cash" asset then { w with cash := item.weight }
      else w) w =
      ⟨pickWeight AssetClass.equities alloc w.equities,
       pickWeight AssetClass.bonds alloc w.bonds,
       pickWeight AssetClass.cash alloc w.cash⟩ := by
  induction alloc with
  | nil => intro w; rfl
  | cons a rest ih =>
      intro w
      rw [List.foldl_cons, ih]
      rw [pickWeight_cons, pickWeight_cons, pickWeight_cons,
        classStep_equities, classStep_bonds, classStep_cash]

/-- C10 (amended): each allocation entry is assigned to at most one class —
the first of equities, bonds, cash (in that priority order) whose substring
occurs case-insensitively in its asset name; for each class the weight used
is that of the last entry assigned to it (entries are never summed), entries
assigned to no class contribute zero, and the simulator outputs are the
rounded weighted blends of exactly these three weights. -/
theorem asset_class_priority_amended (p : Portfolio) :
    computeClassWeights p.allocation =
      ⟨lastAssignedWeight AssetClass.equities p.allocation,
       lastAssignedWeight AssetClass.bonds p.allocation,
       lastAssignedWeight AssetClass.cash p.allocation⟩ ∧
      (SimulationEngine.run p).expected_return =
        pyRound ((lastAssignedWeight AssetClass.equities p.allocation * 7 +
          lastAssignedWeight AssetClass.bonds p.allocation * 3 +
          lastAssignedWeight AssetClass.cash p.allocation * 1) / 100) 1 ∧
      (SimulationEngine.run p).volatility =
        pyRound ((lastAssignedWeight AssetClass.equities p.allocation * 15 +
          lastAssignedWeight AssetClass.bonds p.allocation * 5 +
          lastAssignedWeight AssetClass.cash p.allocation * (1/2)) / 100) 1 := by
  have hw : computeClassWeights p.allocation =
      ⟨lastAssignedWeight AssetClass.equities p.allocation,
       lastAssignedWeight AssetClass.bonds p.allocation,
       lastAssignedWeight AssetClass.cash p.allocation⟩ := by
    rw [computeClassWeights, computeClassWeights_pick]
    rfl
  refine ⟨hw, ?_, ?_⟩
  · show pyRound (rawExpectedReturn (computeClassWeights p.allocation)) 1 = _
    rw [hw]
    rfl
  · show pyRound (rawVolatility (computeClassWeights p.allocation)) 1 = _
    rw [hw]
    rfl

/-- C10 (counterexample): on the allocation [Government bonds 70,
"equities bonds tracker" 30] the code returns expected_return 4.2 (the
second entry is classified as equities only, bonds stays 70), while the
claim's plain last-substring-match rule would give bonds weight 30 and hence
3.0. -/
theorem asset_substring_counterexample :
    (SimulationEngine.run c10Portfolio).expected_return = 21/5 ∧
      pyRound ((lastMatchWeight "equities" c10alloc * 7 + lastMatchWeight "bonds" c10alloc * 3 +
        lastMatchWeight "cash" c10alloc * 1) / 100) 1 = 3 ∧
      ((21:ℚ)/5) ≠ 3 := by
  refine ⟨?_, ?_, by norm_num⟩
  · show pyRound (rawExpectedReturn (computeClassWeights c10Portfolio.allocation)) 1 = 21/5
    rw [show computeClassWeights c10Portfolio.allocation = ⟨30, 70, 0⟩ from rfl]
    norm_num [rawExpectedReturn, pyRound, pyRoundInt]
  · rw [show lastMatchWeight "equities" c10alloc = 30 from rfl,
      show lastMatchWeight "bonds" c10alloc = 30 from rfl,
      show lastMatchWeight "cash" c10alloc = 0 from rfl]
    norm_num [pyRound, pyRoundInt]


/-- The dynamic dict update agrees with the string-keyed specification map. -/
theorem pyUpdate_encode (m : List (String × PyVal)) (k : String) (v : PyVal) :
    pyUpdate (encodePairs m) (PyVal.str k) v = encodePairs (strUpdate m k v) := by
  induction m with
  | nil => rfl
  | cons p rest ih =>
      rw [encodePairs, List.map_cons, pyUpdate, strUpdate]
      by_cases h : p.1 = k
      · rw [show PyVal.beq (PyVal.str p.1) (PyVal.str k) = true from by
          show (p.1 == k) = true
          simp [h]]
        rw [if_pos h]
        rfl
      · rw [show PyVal.beq (PyVal.str p.1) (PyVal.str k) = false from by
          show (p.1 == k) = false
          simp [h]]
        rw [if_neg h]
        simp only [Bool.false_eq_true, if_false]
        rw [show List.map (fun p => (PyVal.str p.1, p.2)) rest = encodePairs rest from rfl, ih]
        rfl

/-- Extraction over well-formed `(id, portfolio)` items folds the pairs into
the id-keyed map, last write winning (ranking.py:135-146). -/
theorem extractItems_pairs (pairs : List (String × PyVal)) :
    ∀ macc : List (String × PyVal),
      (∀ p ∈ pairs, p.1 ≠ "" ∧ p.2.truthy = true) →
      extractItems (pairs.map itemOfPair) (encodePairs macc) =
        Except.ok (encodePairs (strFold macc pairs)) := by
  induction pairs with
  | nil => intro macc _; rfl
  | cons p rest ih =>
      intro macc hok
      obtain ⟨hid, hsp⟩ := hok p (List.mem_cons_self _ _)
      rw [List.map_cons]
      have hstep : extractItems (itemOfPair p :: rest.map itemOfPair) (encodePairs macc) =
          if (PyVal.truthy (PyVal.str p.1) && PyVal.truthy p.2) = true
          then extractItems (rest.map itemOfPair) (pyUpdate (encodePairs macc) (PyVal.str p.1) p.2)
          else Except.error
            (PyErr.rankingViolation "Bundle items must have id and portfolio fields") := rfl
      rw [hstep]
      rw [show PyVal.truthy (PyVal.str p.1) = true from by
        show (!(p.1 == "")) = true
        simp [hid]]
      rw [hsp]
      simp only [Bool.and_self, if_true]
      rw [pyUpdate_encode]
      exact ih _ (fun q hq => hok q (List.mem_cons_of_mem _ hq))


/-- Lookup after a keyed-map update: the updated key maps to the new value,
other keys are untouched. -/
theorem lookupStr_strUpdate (m : List (String × PyVal)) (k : String) (v : PyVal) (s : String) :
    lookupStr s (strUpdate m k v) = if s = k then Option.some v else lookupStr s m := by
  induction m with
  | nil =>
      by_cases h : s = k
      · have hk : (k == s) = true := by simp [h]
        rw [if_pos h]
        simp [lookupStr, List.find?_cons, strUpdate, hk]
      · have hk : (k == s) = false := by
          simp only [beq_eq_false_iff_ne]
          exact fun he => h he.symm
        rw [if_neg h]
        simp [lookupStr, List.find?_cons, strUpdate, hk]
  | cons p rest ih =>
      rw [strUpdate]
      by_cases hpk : p.1 = k
      · rw [if_pos hpk]
        by_cases hsk : s = k
        · have hfind : (p.1 == s) = true := by simp [hpk, hsk]
          rw [if_pos hsk]
          simp [lookupStr, List.find?_cons, hfind]
        · have hfind : (p.1 == s) = false := by
            simp only [beq_eq_false_iff_ne]
            intro he
            exact hsk (by rw [← he, hpk])
          rw [if_neg hsk]
          simp [lookupStr, List.find?_cons, hfind]
      · rw [if_neg hpk]
        by_cases hps : (p.1 == s) = true
        · have hsk : ¬ s = k := fun he => hpk (by rw [eq_of_beq hps, he])
          rw [if_neg hsk]
          simp [lookupStr, List.find?_cons, hps]
        · have hps2 : (p.1 == s) = false := by
            revert hps
            cases (p.1 == s) <;> simp
          have step : lookupStr s ((p.1, p.2) :: strUpdate rest k v)
              = lookupStr s (strUpdate rest k v) := by
            simp [lookupStr, List.find?_cons, hps2]
          rw [step, ih]
          by_cases hsk : s = k
          · rw [if_pos hsk, if_pos hsk]
          · rw [if_neg hsk, if_neg hsk]
            simp [lookupStr, List.find?_cons, hps2]

/-- A keyed-map update keeps the key list when the key is present and appends
it otherwise. -/
theorem keysOf_strUpdate (m : List (String × PyVal)) (k : String) (v : PyVal) :
    keysOf (strUpdate m k v) =
      if k ∈ keysOf m then keysOf m else keysOf m ++ [k] := by
  induction m with
  | nil => simp [keysOf, strUpdate]
  | cons p rest ih =>
      rw [strUpdate]
      by_cases hpk : p.1 = k
      · rw [if_pos hpk]
        have : k ∈ keysOf (p :: rest) := by
          rw [keysOf, List.map_cons, hpk]
          exact List.mem_cons_self _ _
        rw [if_pos this]
        simp [keysOf, hpk]
      · rw [if_neg hpk]
        rw [show keysOf ((p.1, p.2) :: strUpdate rest k v)
          = p.1 :: keysOf (strUpdate rest k v) from rfl, ih]
        by_cases hmem : k ∈ keysOf rest
        · rw [if_pos hmem]
          have : k ∈ keysOf (p :: rest) := by
            rw [keysOf, List.map_cons]
            exact List.mem_cons_of_mem _ hmem
          rw [if_pos this]
          rfl
        · rw [if_neg hmem]
          have : ¬ k ∈ keysOf (p :: rest) := by
            rw [keysOf, List.map_cons]
            intro hc
            rcases List.mem_cons.mp hc with h | h
            · exact hpk h.symm
            · exact hmem h
          rw [if_neg this]
          rfl

/-- A keyed-map update preserves key uniqueness. -/
theorem nodup_keysOf_strUpdate (m : List (String × PyVal)) (k : String) (v : PyVal)
    (h : (keysOf m).Nodup) : (keysOf (strUpdate m k v)).Nodup := by
  rw [keysOf_strUpdate]
  by_cases hmem : k ∈ keysOf m
  · rw [if_pos hmem]; exact h
  · rw [if_neg hmem]
    simp [List.nodup_append, h, hmem]

/-- The key set after an update is the old key set plus the updated key. -/
theorem toFinset_keysOf_strUpdate (m : List (String × PyVal)) (k : String) (v : PyVal) :
    (keysOf (strUpdate m k v)).toFinset = insert k (keysOf m).toFinset := by
  rw [keysOf_strUpdate]
  by_cases hmem : k ∈ keysOf m
  · rw [if_pos hmem]
    exact (Finset.insert_eq_self.mpr (List.mem_toFinset.mpr hmem)).symm
  · rw [if_neg hmem]
    rw [List.toFinset_append]
    rw [Finset.union_comm]
    simp [Finset.insert_eq]

/-- Folding pairs into a keyed map preserves key uniqueness. -/
theorem nodup_keysOf_strFold (pairs : List (String × PyVal)) :
    ∀ acc, (keysOf acc).Nodup → (keysOf (strFold acc pairs)).Nodup := by
  induction pairs with
  | nil => intro acc h; exact h
  | cons p rest ih =>
      intro acc h
      exact ih _ (nodup_keysOf_strUpdate _ _ _ h)

/-- The key set after folding is the old key set united with the pair ids. -/
theorem toFinset_keysOf_strFold (pairs : List (String × PyVal)) :
    ∀ acc, (keysOf (strFold acc pairs)).toFinset =
      (keysOf acc).toFinset ∪ (pairs.map Prod.fst).toFinset := by
  induction pairs with
  | nil => intro acc; simp [strFold]
  | cons p rest ih =>
      intro acc
      rw [show strFold acc (p :: rest) = strFold (strUpdate acc p.1 p.2) rest from rfl, ih,
        toFinset_keysOf_strUpdate, List.map_cons, List.toFinset_cons]
      rw [Finset.insert_union, Finset.union_insert]

/-- Lookup after folding pairs into a keyed map returns the last pair with
the looked-up id, falling back to the initial map. -/
theorem lookupStr_strFold (pairs : List (String × PyVal)) :
    ∀ acc (s : String), lookupStr s (strFold acc pairs) =
      (match (pairs.filter (fun p => p.1 == s)).getLast? with
       | Option.some q => Option.some q.2
       | Option.none => lookupStr s acc) := by
  induction pairs with
  | nil => intro acc s; rfl
  | cons p rest ih =>
      intro acc s
      rw [show strFold acc (p :: rest) = strFold (strUpdate acc p.1 p.2) rest from rfl, ih,
        List.filter_cons]
      by_cases hps : (p.1 == s) = true
      · rw [if_pos hps]
        have hspk : s = p.1 := (eq_of_beq hps).symm
        cases hf : (rest.filter (fun q => q.1 == s)) with
        | nil =>
            simp only [List.getLast?_nil, List.getLast?_singleton]
            rw [lookupStr_strUpdate, if_pos hspk]
        | cons y ys =>
            rw [List.getLast?_cons_cons]
            cases hgl : (y :: ys).getLast? with
            | none => simp at hgl
            | some z => rfl
      · rw [if_neg hps]
        cases hf : (rest.filter (fun q => q.1 == s)) with
        | nil =>
            simp only [List.getLast?_nil]
            rw [lookupStr_strUpdate, if_neg (by
              intro he
              rw [he] at hps
              simp at hps)]
        | cons y ys =>
            cases hgl : (y :: ys).getLast? with
            | none => simp at hgl
            | some z => rfl


/-- Counting entries by key in the dynamic dict counts the string keys. -/
theorem countP_encode (m : List (String × PyVal)) (s : String) :
    (encodePairs m).countP (fun kv => PyVal.beq kv.1 (PyVal.str s)) =
      (keysOf m).count s := by
  rw [encodePairs, keysOf, List.count_eq_countP, List.countP_map, List.countP_map]
  rfl

/-- Key search in the dynamic dict mirrors key search in the string map. -/
theorem find?_encode (m : List (String × PyVal)) (s : String) :
    (encodePairs m).find? (fun kv => PyVal.beq kv.1 (PyVal.str s)) =
      (m.find? (fun p => p.1 == s)).map (fun p => (PyVal.str p.1, p.2)) := by
  induction m with
  | nil => rfl
  | cons p rest ih =>
      rw [encodePairs, List.map_cons, List.find?_cons, List.find?_cons]
      cases hps : (p.1 == s) with
      | true =>
          rw [show PyVal.beq (PyVal.str p.1, p.2).1 (PyVal.str s) = true from hps]
          rfl
      | false =>
          rw [show PyVal.beq (PyVal.str p.1, p.2).1 (PyVal.str s) = false from hps]
          exact ih

/-- The simulation loop produces one bundle record per extracted portfolio. -/
theorem simulateAll_length (ps : List (PyVal × PyVal)) :
    ∀ bs, simulateAll ps = Except.ok bs → bs.length = ps.length := by
  induction ps with
  | nil =>
      intro bs h
      rw [simulateAll] at h
      rw [Except.ok.injEq] at h
      rw [← h]
      rfl
  | cons p rest ih =>
      intro bs h
      obtain ⟨pid, pspec⟩ := p
      rw [simulateAll] at h
      cases hsa : agentSimulate pspec with
      | error e => rw [hsa] at h; exact absurd h (by simp)
      | ok sim =>
          rw [hsa] at h
          cases hrest : simulateAll rest with
          | error e => rw [hrest] at h; exact absurd h (by simp)
          | ok others =>
              rw [hrest] at h
              rw [Except.ok.injEq] at h
              rw [← h, List.length_cons, List.length_cons, ih others hrest]

/-- A successful ranking report counts its export-bundle records as
total_candidates (ranking.py:108). -/
theorem rank_bundles_ok_inv (b : PyVal) (prof : String) (k : Option ℕ) (rep : RankingReport)
    (h : rank_bundles b prof k = Except.ok rep) :
    ∃ ps bs, validate_and_extract_bundle b = Except.ok ps ∧
      simulateAll ps = Except.ok bs ∧ rep.total_candidates = bs.length := by
  rw [rank_bundles] at h
  split at h
  · exact absurd h (by simp)
  · split at h
    · exact absurd h (by simp)
    · split at h
      · exact absurd h (by simp)
      · split at h
        · exact absurd h (by simp)
        · split at h
          · exact absurd h (by simp)
          · split at h
            · simp only [] at h
              split at h
              · exact absurd h (by simp)
              · rw [Except.ok.injEq] at h
                subst h
                exact ⟨_, _, by assumption, by assumption, rfl⟩
            · simp only [] at h
              split at h
              · exact absurd h (by simp)
              · rw [Except.ok.injEq] at h
                subst h
                exact ⟨_, _, by assumption, by assumption, rfl⟩


/-- C9: when a bundle's items list contains duplicate ids, the extraction
keyed by id collapses them silently — exactly one candidate remains per
distinct id, carrying the portfolio of the id's last occurrence — and any
report's total_candidates equals the number of distinct ids, not the number
of input items. -/
theorem duplicate_ids_last_write_wins (pairs : List (String × PyVal)) (hne : pairs ≠ [])
    (hok : ∀ p ∈ pairs, p.1 ≠ "" ∧ p.2.truthy = true) :
    ∃ m, validate_and_extract_bundle (mkRankBundle pairs) = Except.ok m ∧
      m.length = (pairs.map Prod.fst).toFinset.card ∧
      (∀ s : String, m.countP (fun kv => PyVal.beq kv.1 (PyVal.str s)) =
        if s ∈ pairs.map Prod.fst then 1 else 0) ∧
      (∀ s : String, (m.find? (fun kv => PyVal.beq kv.1 (PyVal.str s))).map Prod.snd =
        ((pairs.filter (fun p => p.1 == s)).getLast?).map Prod.snd) ∧
      (∀ (rep : RankingReport) (k : Option ℕ),
        rank_bundles (mkRankBundle pairs) "v1_balanced" k = Except.ok rep →
        rep.total_candidates = (pairs.map Prod.fst).toFinset.card) := by
  have hval : validate_and_extract_bundle (mkRankBundle pairs) =
      extractItems (pairs.map itemOfPair) [] := by
    cases pairs with
    | nil => exact absurd rfl hne
    | cons p rest => rfl
  have hext : validate_and_extract_bundle (mkRankBundle pairs) =
      Except.ok (encodePairs (strFold [] pairs)) := by
    rw [hval]
    exact extractItems_pairs pairs [] hok
  have hnodup : (keysOf (strFold [] pairs)).Nodup := nodup_keysOf_strFold pairs [] List.nodup_nil
  have hfinset : (keysOf (strFold [] pairs)).toFinset = (pairs.map Prod.fst).toFinset := by
    rw [toFinset_keysOf_strFold]
    simp [keysOf]
  refine ⟨encodePairs (strFold [] pairs), hext, ?_, ?_, ?_, ?_⟩
  · rw [show (encodePairs (strFold [] pairs)).length = (keysOf (strFold [] pairs)).length from by
      rw [encodePairs, keysOf, List.length_map, List.length_map]]
    rw [← List.toFinset_card_of_nodup hnodup, hfinset]
  · intro s
    rw [countP_encode]
    by_cases hmem : s ∈ pairs.map Prod.fst
    · rw [if_pos hmem]
      refine List.count_eq_one_of_mem hnodup ?_
      rw [← List.mem_toFinset, hfinset, List.mem_toFinset]
      exact hmem
    · rw [if_neg hmem]
      refine List.count_eq_zero_of_not_mem ?_
      rw [← List.mem_toFinset, hfinset, List.mem_toFinset]
      exact hmem
  · intro s
    rw [find?_encode, Option.map_map]
    have hlk : ((strFold [] pairs).find? (fun p => p.1 == s)).map Prod.snd =
        (match (pairs.filter (fun p => p.1 == s)).getLast? with
         | Option.some q => Option.some q.2
         | Option.none => lookupStr s []) := lookupStr_strFold pairs [] s
    rw [show (Prod.snd ∘ fun (p : String × PyVal) => (PyVal.str p.1, p.2))
      = (Prod.snd : String × PyVal → PyVal) from rfl]
    rw [hlk]
    cases (pairs.filter (fun p => p.1 == s)).getLast? <;> rfl
  · intro rep k hrep
    obtain ⟨ps, bs, hx, hsim, htc⟩ := rank_bundles_ok_inv _ _ _ _ hrep
    rw [hext] at hx
    rw [Except.ok.injEq] at hx
    rw [htc, simulateAll_length ps bs hsim, ← hx]
    rw [show (encodePairs (strFold [] pairs)).length = (keysOf (strFold [] pairs)).length from by
      rw [encodePairs, keysOf, List.length_map, List.length_map]]
    rw [← List.toFinset_card_of_nodup hnodup, hfinset]


/-- Witness for C9: the three-item bundle `c9pairs` has a duplicated id "a";
its extraction collapses to one candidate per distinct id with the last
portfolio winning. -/
theorem duplicate_ids_last_write_wins_witness :
    c9pairs ≠ [] ∧
      (∃ m, validate_and_extract_bundle (mkRankBundle c9pairs) = Except.ok m ∧
        m.length = (c9pairs.map Prod.fst).toFinset.card ∧
        (∀ s : String, m.countP (fun kv => PyVal.beq kv.1 (PyVal.str s)) =
          if s ∈ c9pairs.map Prod.fst then 1 else 0) ∧
        (∀ s : String, (m.find? (fun kv => PyVal.beq kv.1 (PyVal.str s))).map Prod.snd =
          ((c9pairs.filter (fun p => p.1 == s)).getLast?).map Prod.snd) ∧
        (∀ (rep : RankingReport) (k : Option ℕ),
          rank_bundles (mkRankBundle c9pairs) "v1_balanced" k = Except.ok rep →
          rep.total_candidates = (c9pairs.map Prod.fst).toFinset.card)) :=
  ⟨List.cons_ne_nil _ _,
    duplicate_ids_last_write_wins c9pairs (List.cons_ne_nil _ _) (by decide)⟩

end Foliorank
